import Mathlib

/-!
# Heated chamber controller (`src/Logic.cpp`)

A shallow embedding of the control loop of the heated-chamber thermostat.

Modelling conventions:

* `unsigned long` timestamps are natural numbers below `2^32`; the only
  arithmetic the program does on them is the subtraction `now - start`, which
  is embedded as `elapsed now start`, the subtraction modulo `2^32`.
* `int tempset` is an unbounded integer (the program changes it by one per
  button event; signed overflow is undefined in C++ and is not modelled).
* `float tempread` is the rational number a finite float denotes; in the
  comparisons of `updateRelay` the `int` operand is converted to `float` first,
  as C++ does, by `intToFloat` (round to nearest, ties to even, 24-bit
  significand), and the two floats are then compared exactly.
* Every hardware read (`digitalRead`, `millis`, `getTempCByIndex`) is an
  explicit argument of the function that performs it; every hardware write
  (`digitalWrite`, the LCD, `requestTemperatures`) is a field of the state.
-/

namespace HeatedChamber

/-! ## Constants (lines 10-24) -/

def BUTTON_ADD : Nat := 34
def BUTTON_CONFIRM : Nat := 35
def BUTTON_MINUS : Nat := 32
def RELAY_PIN : Nat := 25

def HOLD_THRESHOLD : Nat := 50
def REPEAT_INTERVAL : Nat := 100
def HYSTERESIS : Int := 2
def DEBOUNCE_DELAY : Nat := 50

/-- The number of values of an `unsigned long` (32 bits on the target). -/
def ULONG_RANGE : Nat := 4294967296

/-- The C++ expression `now - start` on `unsigned long` operands. -/
def elapsed (now start : Nat) : Nat := (now + ULONG_RANGE - start) % ULONG_RANGE

/-! ## Data model (lines 26-53) -/

/-- The `struct ButtonState` of line 40. -/
structure ButtonState where
  pin : Nat
  wasPressed : Bool
  pressStart : Nat
  lastRepeat : Nat
  lastDebounceTime : Nat
  deriving DecidableEq, Repr

/-- One write to the character display. -/
inductive LcdOp where
  | setCursor (col row : Nat)
  | printStr (s : String)
  | printInt (n : Int)
  | printFloat (x : ℚ) (digits : Nat)
  deriving DecidableEq, Repr

/-- The global variables of the sketch together with the outputs it drives:
the level of `RELAY_PIN`, the writes sent to the LCD and the number of
conversions requested from the sensor. -/
structure Globals where
  tempset : Int
  tempread : ℚ
  forceDisplayUpdate : Bool
  lastTempRequestTime : Nat
  tempConversionDelay : Nat
  tempRequested : Bool
  lastDisplayUpdate : Nat
  addButton : ButtonState
  minusButton : ButtonState
  selectButton : ButtonState
  currentControl : Bool
  relay : Bool
  lcd : List LcdOp
  requests : Nat
  deriving DecidableEq, Repr

/-- The initial values of the globals (lines 27-53) with the relay driven
`LOW` by `setup` (line 62); the LCD log starts empty after the splash screen. -/
def initGlobals : Globals :=
  { tempset := 25
    tempread := 0
    forceDisplayUpdate := true
    lastTempRequestTime := 0
    tempConversionDelay := 750
    tempRequested := false
    lastDisplayUpdate := 0
    addButton := ⟨BUTTON_ADD, false, 0, 0, 0⟩
    minusButton := ⟨BUTTON_MINUS, false, 0, 0, 0⟩
    selectButton := ⟨BUTTON_CONFIRM, false, 0, 0, 0⟩
    currentControl := true
    relay := false
    lcd := []
    requests := 0 }

/-! ## Button handling (lines 87-130) -/

/-- The condition of lines 100 and 121. -/
def repeatDue (now : Nat) (btn : ButtonState) : Bool :=
  decide (elapsed now btn.pressStart ≥ HOLD_THRESHOLD) &&
    decide (elapsed now btn.lastRepeat ≥ REPEAT_INTERVAL)

/-- What `handleButton` reads and writes: the button passed by reference, the
target passed by reference and the global `forceDisplayUpdate`. -/
structure ButtonCtx where
  btn : ButtonState
  target : Int
  forceDisplayUpdate : Bool
  deriving DecidableEq, Repr

/-- The function `handleButton` (lines 87-108); `state` is the result of
`digitalRead(btn.pin) == HIGH` and `now` the result of `millis()`. -/
def handleButton (state : Bool) (now : Nat) (delta : Int) (c : ButtonCtx) : ButtonCtx :=
  let c1 : ButtonCtx :=
    if state && !c.btn.wasPressed then
      { btn := { c.btn with pressStart := now, lastRepeat := now }
        target := c.target + delta
        forceDisplayUpdate := true }
    else if state && c.btn.wasPressed then
      if repeatDue now c.btn then
        { btn := { c.btn with lastRepeat := now }
          target := c.target + delta
          forceDisplayUpdate := true }
      else c
    else c
  { c1 with btn := { c1.btn with wasPressed := state } }

/-- What `buttonSelect` writes, with its return value. -/
structure SelectResult where
  fired : Bool
  btn : ButtonState
  forceDisplayUpdate : Bool
  deriving DecidableEq, Repr

/-- The function `buttonSelect` (lines 110-130). The `return true` of line 124
leaves the function before line 128. -/
def buttonSelect (state : Bool) (now : Nat) (btn : ButtonState) (force : Bool) : SelectResult :=
  if state && !btn.wasPressed then
    { fired := false
      btn := { btn with pressStart := now, lastRepeat := now, wasPressed := state }
      forceDisplayUpdate := true }
  else if state && btn.wasPressed then
    if repeatDue now btn then
      { fired := true
        btn := { btn with lastRepeat := now }
        forceDisplayUpdate := true }
    else
      { fired := false
        btn := { btn with wasPressed := state }
        forceDisplayUpdate := force }
  else
    { fired := false
      btn := { btn with wasPressed := state }
      forceDisplayUpdate := force }

/-! ## Relay logic (lines 133-143) -/

/-- The number of low bits the conversion of the magnitude `m` to `float`
drops: the least `e`, searched upwards from the given one, with
`m < 2^(24+e)`. The fuel bounds the search; an `int` needs at most 8. -/
def droppedBits : Nat → Nat → Nat → Nat
  | 0, _, e => e
  | fuel + 1, m, e => if m < 2 ^ (24 + e) then e else droppedBits fuel m (e + 1)

/-- The value of `(float) n` for an `int` `n`, the conversion C++ applies to
the `int` operand of a comparison with a `float`: values of magnitude up to
`2^24` are exact, larger ones are rounded to a 24-bit significand, to nearest
and ties to even. -/
def intToFloat (n : Int) : ℚ :=
  if n.natAbs ≤ 16777216 then (n : ℚ)
  else
    let e := droppedBits 104 n.natAbs 1
    let q := n.natAbs / 2 ^ e
    let r := n.natAbs % 2 ^ e
    let q1 := if 2 * r > 2 ^ e ∨ (2 * r = 2 ^ e ∧ q % 2 = 1) then q + 1 else q
    if n < 0 then -((q1 * 2 ^ e : Nat) : ℚ) else ((q1 * 2 ^ e : Nat) : ℚ)

/-- The function `updateRelay`: the new level of `RELAY_PIN` (`true` is `HIGH`,
the heater ON) from the sample, the setpoint and the level before the call.
Lines 135 and 137 compare the `float` sample with the `int` bound converted to
`float`. -/
def updateRelay (logic : Bool) (tempread : ℚ) (tempset : Int) (relay : Bool) : Bool :=
  if logic = true then
    if tempread > intToFloat (tempset + HYSTERESIS) then false
    else if tempread < intToFloat (tempset - HYSTERESIS) then true
    else relay
  else false

/-! ## Display (lines 146-187) -/

/-- The function `defultUpdateDisplay`; `t1` and `t2` are the results of its
two calls of `millis()`. -/
def defultUpdateDisplay (t1 t2 : Nat) (g : Globals) : Globals :=
  if g.forceDisplayUpdate || decide (elapsed t1 g.lastDisplayUpdate ≥ 1000) then
    { g with
      lcd := g.lcd ++
        [LcdOp.setCursor 8 0, LcdOp.printInt g.tempset, LcdOp.printStr " C  ",
         LcdOp.setCursor 9 1, LcdOp.printFloat g.tempread 1, LcdOp.printStr " C  "]
      lastDisplayUpdate := t2
      forceDisplayUpdate := false }
  else g

/-- The function `readUpdateDisplay`. -/
def readUpdateDisplay (t1 t2 : Nat) (g : Globals) : Globals :=
  if g.forceDisplayUpdate || decide (elapsed t1 g.lastDisplayUpdate ≥ 1000) then
    { g with
      lcd := g.lcd ++
        [LcdOp.setCursor 0 0, LcdOp.printStr "Read Only",
         LcdOp.setCursor 9 1, LcdOp.printFloat g.tempread 1, LcdOp.printStr " C  "]
      lastDisplayUpdate := t2
      forceDisplayUpdate := false }
  else g

/-- The function `controlUpdater`. -/
def controlUpdater (toggle : Bool) (t1 t2 : Nat) (g : Globals) : Globals :=
  let g1 : Globals := if toggle then { g with currentControl := !g.currentControl } else g
  if g1.currentControl = true then defultUpdateDisplay t1 t2 g1 else readUpdateDisplay t1 t2 g1

/-! ## Main loop (lines 190-212) -/

/-- Everything one pass of `loop` reads from the hardware: the clock at each
call of `millis()`, the three button levels and the sensor value. -/
structure TickInput where
  now : Nat
  sensor : ℚ
  addLevel : Bool
  addNow : Nat
  minusLevel : Bool
  minusNow : Nat
  selectLevel : Bool
  selectNow : Nat
  dispNow1 : Nat
  dispNow2 : Nat
  deriving DecidableEq, Repr

/-- Lines 194-202: the non-blocking temperature reading. -/
def acquire (now : Nat) (sensor : ℚ) (g : Globals) : Globals :=
  if !g.tempRequested then
    { g with requests := g.requests + 1, lastTempRequestTime := now, tempRequested := true }
  else if elapsed now g.lastTempRequestTime ≥ g.tempConversionDelay then
    { g with tempread := sensor, tempRequested := false, forceDisplayUpdate := true }
  else g

/-- Line 205: `handleButton(addButton, tempset, +1)`. -/
def handleAdd (state : Bool) (now : Nat) (g : Globals) : Globals :=
  let r := handleButton state now 1 ⟨g.addButton, g.tempset, g.forceDisplayUpdate⟩
  { g with addButton := r.btn, tempset := r.target, forceDisplayUpdate := r.forceDisplayUpdate }

/-- Line 206: `handleButton(minusButton, tempset, -1)`. -/
def handleMinus (state : Bool) (now : Nat) (g : Globals) : Globals :=
  let r := handleButton state now (-1) ⟨g.minusButton, g.tempset, g.forceDisplayUpdate⟩
  { g with minusButton := r.btn, tempset := r.target, forceDisplayUpdate := r.forceDisplayUpdate }

/-- Line 209: `updateRelay(currentControl)`. -/
def relayStep (g : Globals) : Globals :=
  { g with relay := updateRelay g.currentControl g.tempread g.tempset g.relay }

/-- Line 210: `controlUpdater(buttonSelect(selectButton))`. -/
def selectStep (state : Bool) (now t1 t2 : Nat) (g : Globals) : Globals :=
  let r := buttonSelect state now g.selectButton g.forceDisplayUpdate
  controlUpdater r.fired t1 t2
    { g with selectButton := r.btn, forceDisplayUpdate := r.forceDisplayUpdate }

/-- One pass of `loop`. -/
def loop (i : TickInput) (g : Globals) : Globals :=
  let g1 := acquire i.now i.sensor g
  let g2 := handleAdd i.addLevel i.addNow g1
  let g3 := handleMinus i.minusLevel i.minusNow g2
  let g4 := relayStep g3
  selectStep i.selectLevel i.selectNow i.dispNow1 i.dispNow2 g4

/-- Successive passes of `loop`, one per input. -/
def runLoop : List TickInput → Globals → Globals
  | [], g => g
  | i :: rest, g => runLoop rest (loop i g)

/-! ## Runs of one channel over several ticks -/

/-- Successive calls of `handleButton` on one channel, one per tick
`(level, now)`. -/
def handleButtonRun (delta : Int) : List (Bool × Nat) → ButtonCtx → ButtonCtx
  | [], c => c
  | (state, now) :: rest, c => handleButtonRun delta rest (handleButton state now delta c)

/-- Whether the call of `handleButton` at this tick executes `target += delta`:
the call is run with `delta = 1` on the target `0` and the target is inspected. -/
def emitsDelta (state : Bool) (now : Nat) (btn : ButtonState) : Bool :=
  decide ((handleButton state now 1 ⟨btn, 0, false⟩).target ≠ 0)

/-- The timestamps of the ticks at which `handleButton` emits a delta event. -/
def deltaEventTimes : List (Bool × Nat) → ButtonState → List Nat
  | [], _ => []
  | (state, now) :: rest, btn =>
    (if emitsDelta state now btn then [now] else []) ++
      deltaEventTimes rest (handleButton state now 1 ⟨btn, 0, false⟩).btn

/-- The timestamps of the ticks at which `buttonSelect` returns `true`. -/
def selectEventTimes : List (Bool × Nat) → ButtonState → List Nat
  | [], _ => []
  | (state, now) :: rest, btn =>
    (if (buttonSelect state now btn false).fired then [now] else []) ++
      selectEventTimes rest (buttonSelect state now btn false).btn

/-- The ticks of a continuous hold: the level reads high at each time. -/
def holdTicks (ts : List Nat) : List (Bool × Nat) := ts.map (fun t => (true, t))

/-- The state in which line 210 of `loop` finds the globals in the pass with
input `i`. -/
def beforeSelect (i : TickInput) (g : Globals) : Globals :=
  relayStep (handleMinus i.minusLevel i.minusNow
    (handleAdd i.addLevel i.addNow (acquire i.now i.sensor g)))

/-- The value `buttonSelect` returns in the pass of `loop` with input `i`. -/
def selectFired (i : TickInput) (g : Globals) : Bool :=
  (buttonSelect i.selectLevel i.selectNow (beforeSelect i g).selectButton
    (beforeSelect i g).forceDisplayUpdate).fired

/-- The values `buttonSelect` returns in successive passes of `loop`. -/
def selectFiredLog : List TickInput → Globals → List Bool
  | [], _ => []
  | i :: rest, g => selectFired i g :: selectFiredLog rest (loop i g)

/-- The state in which `loop` calls `controlUpdater` in the pass with input
`i`: `buttonSelect` has run on the mode-select channel. -/
def afterSelect (i : TickInput) (g : Globals) : Globals :=
  { beforeSelect i g with
    selectButton := (buttonSelect i.selectLevel i.selectNow (beforeSelect i g).selectButton
      (beforeSelect i g).forceDisplayUpdate).btn
    forceDisplayUpdate := (buttonSelect i.selectLevel i.selectNow
      (beforeSelect i g).selectButton (beforeSelect i g).forceDisplayUpdate).forceDisplayUpdate }

/-! ## Redraws -/

/-- The writes of one redraw of the control view (lines 148-154). -/
def defaultFrame (tempset : Int) (tempread : ℚ) : List LcdOp :=
  [LcdOp.setCursor 8 0, LcdOp.printInt tempset, LcdOp.printStr " C  ",
   LcdOp.setCursor 9 1, LcdOp.printFloat tempread 1, LcdOp.printStr " C  "]

/-- The writes of one redraw of the read-only view (lines 164-169). -/
def readFrame (tempread : ℚ) : List LcdOp :=
  [LcdOp.setCursor 0 0, LcdOp.printStr "Read Only",
   LcdOp.setCursor 9 1, LcdOp.printFloat tempread 1, LcdOp.printStr " C  "]

/-- The test of lines 147 and 163, with `t1` the clock it reads. -/
def redrawDue (t1 : Nat) (g : Globals) : Bool :=
  g.forceDisplayUpdate || decide (elapsed t1 g.lastDisplayUpdate ≥ 1000)

/-! ## Calls on one button channel -/

/-- Which of the two button functions a call is. -/
inductive ButtonCall where
  | handle (delta : Int)
  | select
  deriving DecidableEq, Repr

/-- One call on a button channel: the function, the level it reads and the
clock it reads. -/
structure ChannelCall where
  call : ButtonCall
  level : Bool
  now : Nat
  deriving DecidableEq, Repr

/-- The button state one call leaves. -/
def buttonStep (k : ChannelCall) (btn : ButtonState) : ButtonState :=
  match k.call with
  | ButtonCall.handle delta => (handleButton k.level k.now delta ⟨btn, 0, false⟩).btn
  | ButtonCall.select => (buttonSelect k.level k.now btn false).btn

/-- The button state a sequence of calls leaves. -/
def buttonRun : List ChannelCall → ButtonState → ButtonState
  | [], btn => btn
  | k :: rest, btn => buttonRun rest (buttonStep k btn)

/-- The initial state of a button channel (lines 48-50). -/
def initButton (pin : Nat) : ButtonState := ⟨pin, false, 0, 0, 0⟩

/-! ## The repeat rule in words -/

/-- The ticks of a hold on which a repeat is due when the rule is "a tick at
least `REPEAT_INTERVAL` after the last event is the next event": `last` is the
time of the last event and the ticks are gone through in order. This is the
rule written down on its own, to compare `handleButton` with. -/
def repeatTicks : Nat → List Nat → List Nat
  | _, [] => []
  | last, t :: ts =>
    if last + REPEAT_INTERVAL ≤ t then t :: repeatTicks t ts else repeatTicks last ts

/-! ## The hysteresis relay controller -/

/-- The conversion of an `int` of magnitude up to `2^24` to `float` is
exact. -/
theorem intToFloat_exact (n : Int) (h : n.natAbs ≤ 16777216) : intToFloat n = (n : ℚ) := by
  unfold intToFloat
  rw [if_pos h]

/-- C1 as stated fails: at setpoint 16777217 the bound `setpoint + 2` is
converted to the float 16777220, so the sample 16777220, which is above
`setpoint + HYSTERESIS = 16777219`, does not switch the actuator OFF: the
actuator that was ON stays ON. -/
theorem updateRelay_rounds_bound :
    (16777220 : ℚ) > ((16777217 : Int) : ℚ) + 2 ∧
      intToFloat (16777217 + HYSTERESIS) = 16777220 ∧
      updateRelay true 16777220 16777217 true = true := by
  have h1 : intToFloat (16777217 + HYSTERESIS) = 16777220 := by
    simp [intToFloat, HYSTERESIS, droppedBits]
  have h2 : intToFloat (16777217 - HYSTERESIS) = 16777215 := by
    simp [intToFloat, HYSTERESIS]
  refine ⟨by norm_num, h1, ?_⟩
  simp only [updateRelay, if_true, h1, h2]
  norm_num

/-- C1 amended: with control enabled and a setpoint whose bounds
`setpoint + HYSTERESIS` and `setpoint - HYSTERESIS` convert to `float` exactly
(every setpoint between -16777214 and 16777214 does), `updateRelay` switches
the actuator OFF when the temperature is above `setpoint + HYSTERESIS`, ON
when it is below `setpoint - HYSTERESIS`, and otherwise keeps the prior level;
at exactly `setpoint + HYSTERESIS` and `setpoint - HYSTERESIS` the level does
not change. -/
theorem updateRelay_enabled (tempread : ℚ) (tempset : Int) (relay : Bool)
    (hhi : intToFloat (tempset + HYSTERESIS) = ((tempset + HYSTERESIS : Int) : ℚ))
    (hlo : intToFloat (tempset - HYSTERESIS) = ((tempset - HYSTERESIS : Int) : ℚ)) :
    HYSTERESIS = 2 ∧
    (tempread > (tempset : ℚ) + 2 → updateRelay true tempread tempset relay = false) ∧
    (tempread < (tempset : ℚ) - 2 → updateRelay true tempread tempset relay = true) ∧
    (¬ tempread > (tempset : ℚ) + 2 → ¬ tempread < (tempset : ℚ) - 2 →
      updateRelay true tempread tempset relay = relay) ∧
    updateRelay true ((tempset : ℚ) + 2) tempset relay = relay ∧
    updateRelay true ((tempset : ℚ) - 2) tempset relay = relay ∧
    (∀ s : Int, -16777214 ≤ s → s ≤ 16777214 →
      intToFloat (s + HYSTERESIS) = ((s + HYSTERESIS : Int) : ℚ) ∧
        intToFloat (s - HYSTERESIS) = ((s - HYSTERESIS : Int) : ℚ)) := by
  have key : ∀ x : ℚ, updateRelay true x tempset relay =
      (if x > (tempset : ℚ) + 2 then false
       else if x < (tempset : ℚ) - 2 then true else relay) := by
    intro x
    simp only [updateRelay, if_true, hhi, hlo]
    simp [HYSTERESIS]
  refine ⟨rfl, ?_, ?_, ?_, ?_, ?_, ?_⟩
  · intro h
    rw [key, if_pos h]
  · intro h
    have h1 : ¬ tempread > (tempset : ℚ) + 2 := by
      intro h2
      linarith
    rw [key, if_neg h1, if_pos h]
  · intro h1 h2
    rw [key, if_neg h1, if_neg h2]
  · have h1 : ¬ (tempset : ℚ) + 2 > (tempset : ℚ) + 2 := lt_irrefl _
    have h2 : ¬ (tempset : ℚ) + 2 < (tempset : ℚ) - 2 := by
      intro h
      linarith
    rw [key, if_neg h1, if_neg h2]
  · have h1 : ¬ (tempset : ℚ) - 2 > (tempset : ℚ) + 2 := by
      intro h
      linarith
    have h2 : ¬ (tempset : ℚ) - 2 < (tempset : ℚ) - 2 := lt_irrefl _
    rw [key, if_neg h1, if_neg h2]
  · intro s h1 h2
    constructor
    · apply intToFloat_exact
      simp only [HYSTERESIS]
      omega
    · apply intToFloat_exact
      simp only [HYSTERESIS]
      omega

/-- The relay at setpoint 25: OFF at 28, ON at 22, unchanged at 27 and at 23. -/
theorem updateRelay_enabled_witness :
    updateRelay true 28 25 true = false ∧ updateRelay true 22 25 false = true ∧
      updateRelay true 27 25 true = true ∧ updateRelay true 23 25 false = false :=
  ⟨(updateRelay_enabled 28 25 true (intToFloat_exact _ (by decide))
      (intToFloat_exact _ (by decide))).2.1 (by norm_num),
    (updateRelay_enabled 22 25 false (intToFloat_exact _ (by decide))
      (intToFloat_exact _ (by decide))).2.2.1 (by norm_num),
    (updateRelay_enabled 27 25 true (intToFloat_exact _ (by decide))
      (intToFloat_exact _ (by decide))).2.2.2.1 (by norm_num) (by norm_num),
    (updateRelay_enabled 23 25 false (intToFloat_exact _ (by decide))
      (intToFloat_exact _ (by decide))).2.2.2.1 (by norm_num) (by norm_num)⟩

/-- C2: with control disabled, `updateRelay` leaves the actuator OFF whatever
the temperature, the setpoint and the prior level. -/
theorem updateRelay_disabled (tempread : ℚ) (tempset : Int) (relay : Bool) :
    updateRelay false tempread tempset relay = false := by
  simp [updateRelay]

/-- C3 as stated fails: from the actuator OFF with setpoint 25, the samples
27.1 and 23.5 do not give the levels OFF and then ON. -/
theorem scenarioA_not_off_on :
    ¬ (updateRelay true (271 / 10) 25 false = false ∧
       updateRelay true (47 / 2) 25 (updateRelay true (271 / 10) 25 false) = true) := by
  simp [updateRelay, HYSTERESIS, intToFloat]
  norm_num

/-- C3 amended: from the actuator OFF with setpoint 25 and band 2, the sample
27.1 leaves the actuator OFF and the sample 23.5, which is not below 23, leaves
it OFF again. -/
theorem scenarioA_off_off :
    initGlobals.tempset = 25 ∧ initGlobals.relay = false ∧
    updateRelay true (271 / 10) initGlobals.tempset initGlobals.relay = false ∧
    updateRelay true (47 / 2) initGlobals.tempset
      (updateRelay true (271 / 10) initGlobals.tempset initGlobals.relay) = false := by
  refine ⟨rfl, rfl, ?_, ?_⟩ <;> simp [updateRelay, HYSTERESIS, initGlobals, intToFloat] <;>
    norm_num

/-! ## The edge/repeat engine, one call -/

/-- C4: on a fresh press (level read high, stored level low) `handleButton`
adds `delta` to the setpoint once, sets `pressStart` and `lastRepeat` to `now`,
sets `forceDisplayUpdate` and stores the level as high. -/
theorem handleButton_press (now : Nat) (delta : Int) (c : ButtonCtx)
    (hlow : c.btn.wasPressed = false) :
    handleButton true now delta c =
      { btn := { c.btn with pressStart := now, lastRepeat := now, wasPressed := true }
        target := c.target + delta
        forceDisplayUpdate := true } := by
  simp [handleButton, hlow]

/-- A press of the adjust-up button at 1000 ms with the setpoint at 25. -/
theorem handleButton_press_witness :
    handleButton true 1000 1 ⟨⟨34, false, 0, 0, 0⟩, 25, false⟩ =
      ⟨⟨34, true, 1000, 1000, 0⟩, 26, true⟩ :=
  handleButton_press 1000 1 ⟨⟨34, false, 0, 0, 0⟩, 25, false⟩ rfl

/-- C5: while held (stored level high, level read high) `handleButton` adds
`delta` to the setpoint, sets `lastRepeat` to `now` and sets
`forceDisplayUpdate` exactly when `now - pressStart >= HOLD_THRESHOLD` and
`now - lastRepeat >= REPEAT_INTERVAL`; otherwise nothing changes; `pressStart`
is unchanged in both cases. -/
theorem handleButton_held (now : Nat) (delta : Int) (c : ButtonCtx)
    (hhigh : c.btn.wasPressed = true) :
    HOLD_THRESHOLD = 50 ∧ REPEAT_INTERVAL = 100 ∧
    ((elapsed now c.btn.pressStart ≥ HOLD_THRESHOLD ∧
        elapsed now c.btn.lastRepeat ≥ REPEAT_INTERVAL) →
      handleButton true now delta c =
        { btn := { c.btn with lastRepeat := now }
          target := c.target + delta
          forceDisplayUpdate := true }) ∧
    (¬ (elapsed now c.btn.pressStart ≥ HOLD_THRESHOLD ∧
        elapsed now c.btn.lastRepeat ≥ REPEAT_INTERVAL) →
      handleButton true now delta c = c) ∧
    (delta ≠ 0 →
      ((handleButton true now delta c).target = c.target + delta ↔
        (elapsed now c.btn.pressStart ≥ HOLD_THRESHOLD ∧
          elapsed now c.btn.lastRepeat ≥ REPEAT_INTERVAL))) ∧
    (handleButton true now delta c).btn.pressStart = c.btn.pressStart := by
  obtain ⟨⟨pin, wp, ps, lr, ld⟩, target, force⟩ := c
  simp only at hhigh
  subst hhigh
  refine ⟨rfl, rfl, ?_, ?_, ?_, ?_⟩
  · intro h
    simp [handleButton, repeatDue, h.1, h.2]
  · intro h
    have h2 : repeatDue now ⟨pin, true, ps, lr, ld⟩ = false := by
      simp only [repeatDue, Bool.and_eq_false_iff, decide_eq_false_iff_not]
      by_cases h1 : elapsed now ps ≥ HOLD_THRESHOLD
      · exact Or.inr (fun h3 => h ⟨h1, h3⟩)
      · exact Or.inl h1
    simp [handleButton, h2]
  · intro hd
    by_cases h : repeatDue now ⟨pin, true, ps, lr, ld⟩ = true
    · have h2 := h
      simp only [repeatDue, Bool.and_eq_true, decide_eq_true_eq] at h2
      simp [handleButton, h, h2.1, h2.2]
    · have h2 := h
      simp only [repeatDue, Bool.and_eq_true, decide_eq_true_eq] at h2
      simp only [handleButton, h]
      simp [hd, h2]
  · by_cases h : repeatDue now ⟨pin, true, ps, lr, ld⟩ = true <;> simp [handleButton, h]

/-- A button pressed at 1000 ms repeats at 1100 ms and not at 1099 ms. -/
theorem handleButton_held_witness :
    handleButton true 1100 1 ⟨⟨34, true, 1000, 1000, 0⟩, 26, false⟩ =
        ⟨⟨34, true, 1000, 1100, 0⟩, 27, true⟩ ∧
      handleButton true 1099 1 ⟨⟨34, true, 1000, 1000, 0⟩, 26, false⟩ =
        ⟨⟨34, true, 1000, 1000, 0⟩, 26, false⟩ :=
  ⟨(handleButton_held 1100 1 ⟨⟨34, true, 1000, 1000, 0⟩, 26, false⟩ rfl).2.2.1
      (by decide),
    (handleButton_held 1099 1 ⟨⟨34, true, 1000, 1000, 0⟩, 26, false⟩ rfl).2.2.2.1
      (by decide)⟩

/-- C6: when the level reads low `handleButton` emits no event: the setpoint,
`pressStart`, `lastRepeat` and `forceDisplayUpdate` are unchanged, and the
stored level becomes low. -/
theorem handleButton_low (now : Nat) (delta : Int) (c : ButtonCtx) :
    handleButton false now delta c = { c with btn := { c.btn with wasPressed := false } } := by
  simp [handleButton]

/-! ## The edge/repeat engine over a hold -/

/-- Without rollover the modular difference is the difference. -/
theorem elapsed_of_le {now start : Nat} (h1 : start ≤ now) (h2 : now < ULONG_RANGE) :
    elapsed now start = now - start := by
  unfold elapsed ULONG_RANGE at *
  omega

/-- The button state `handleButton` leaves does not depend on the target, on
the delta or on the redraw flag. -/
theorem handleButton_btn (state : Bool) (now : Nat) (delta : Int) (c : ButtonCtx) :
    (handleButton state now delta c).btn = (handleButton state now 1 ⟨c.btn, 0, false⟩).btn := by
  obtain ⟨⟨pin, wp, ps, lr, ld⟩, target, force⟩ := c
  by_cases h : repeatDue now ⟨pin, wp, ps, lr, ld⟩ = true <;>
    cases state <;> cases wp <;> simp [handleButton, h]

/-- The target moves by `delta` exactly on the ticks that emit an event. -/
theorem handleButton_target (state : Bool) (now : Nat) (delta : Int) (c : ButtonCtx) :
    (handleButton state now delta c).target =
      c.target + (if emitsDelta state now c.btn then delta else 0) := by
  obtain ⟨⟨pin, wp, ps, lr, ld⟩, target, force⟩ := c
  by_cases h : repeatDue now ⟨pin, wp, ps, lr, ld⟩ = true <;>
    cases state <;> cases wp <;> simp [handleButton, emitsDelta, h]

/-- Over a run the target moves by `delta` times the number of events. -/
theorem handleButtonRun_target (delta : Int) (ticks : List (Bool × Nat)) :
    ∀ c : ButtonCtx, (handleButtonRun delta ticks c).target =
      c.target + delta * ((deltaEventTimes ticks c.btn).length : Int) := by
  induction ticks with
  | nil => intro c; simp [handleButtonRun, deltaEventTimes]
  | cons tk rest ih =>
    intro c
    obtain ⟨state, now⟩ := tk
    rw [handleButtonRun, ih, handleButton_target, handleButton_btn, deltaEventTimes]
    by_cases h : emitsDelta state now c.btn = true
    · simp only [h, if_true, List.length_append, List.length_singleton]
      push_cast
      ring
    · simp only [h, List.nil_append]
      simp

/-- A held channel: what one more high tick does to the button and whether it
emits. -/
theorem handleButton_held_btn (now : Nat) (btn : ButtonState) (hw : btn.wasPressed = true) :
    (handleButton true now 1 ⟨btn, 0, false⟩).btn =
        (if repeatDue now btn then { btn with lastRepeat := now } else btn) ∧
      emitsDelta true now btn = repeatDue now btn := by
  obtain ⟨pin, wp, ps, lr, ld⟩ := btn
  simp only at hw
  subst hw
  by_cases h : repeatDue now ⟨pin, true, ps, lr, ld⟩ = true <;> simp [handleButton, emitsDelta, h]

/-- A held channel: `buttonSelect` moves the button as `handleButton` does and
returns `true` exactly when the repeat is due. -/
theorem buttonSelect_held (now : Nat) (btn : ButtonState) (force : Bool)
    (hw : btn.wasPressed = true) :
    (buttonSelect true now btn force).btn =
        (if repeatDue now btn then { btn with lastRepeat := now } else btn) ∧
      (buttonSelect true now btn force).fired = repeatDue now btn := by
  obtain ⟨pin, wp, ps, lr, ld⟩ := btn
  simp only at hw
  subst hw
  by_cases h : repeatDue now ⟨pin, true, ps, lr, ld⟩ = true <;> simp [buttonSelect, h]

/-- Events spaced by at least `k` and all inside `[a, M]`: there are at most
`(M - a) / k` of them after `a`. -/
theorem chain_gap_length (k : Nat) (M : Nat) :
    ∀ (es : List Nat) (a : Nat), List.Chain (fun x y => x + k ≤ y) a es → a ≤ M →
      (∀ e ∈ es, e ≤ M) → a + k * es.length ≤ M := by
  intro es
  induction es with
  | nil => intro a _ ha _; simpa using ha
  | cons e rest ih =>
    intro a hc _ hM
    rw [List.chain_cons] at hc
    have h1 := ih e hc.2 (hM e (List.mem_cons_self _ _))
      (fun x hx => hM x (List.mem_cons_of_mem _ hx))
    rw [List.length_cons, Nat.mul_succ]
    omega

/-- The ticks of a hold, one time at a step. -/
theorem holdTicks_cons (t : Nat) (ts : List Nat) :
    holdTicks (t :: ts) = (true, t) :: holdTicks ts := rfl

/-- The events of a held channel are spaced by at least `REPEAT_INTERVAL`,
starting from `lastRepeat`, and happen at tick times. -/
theorem deltaEventTimes_held (ts : List Nat) :
    ∀ btn : ButtonState, btn.wasPressed = true →
      (∀ t ∈ ts, btn.lastRepeat ≤ t ∧ t < ULONG_RANGE) → ts.Pairwise (· ≤ ·) →
      List.Chain (fun x y => x + REPEAT_INTERVAL ≤ y) btn.lastRepeat
          (deltaEventTimes (holdTicks ts) btn) ∧
        ∀ e ∈ deltaEventTimes (holdTicks ts) btn, e ∈ ts := by
  induction ts with
  | nil =>
    intro btn _ _ _
    simp [holdTicks, deltaEventTimes]
  | cons t rest ih =>
    intro btn hw hb hp
    have hstep := handleButton_held_btn t btn hw
    rw [List.pairwise_cons] at hp
    have ht := hb t (List.mem_cons_self _ _)
    rw [holdTicks_cons, deltaEventTimes, hstep.1, hstep.2]
    by_cases h : repeatDue t btn = true
    · have hgap : btn.lastRepeat + REPEAT_INTERVAL ≤ t := by
        simp only [repeatDue, Bool.and_eq_true, decide_eq_true_eq] at h
        have h2 := h.2
        rw [elapsed_of_le ht.1 ht.2] at h2
        omega
      have hrec := ih { btn with lastRepeat := t } hw
        (fun x hx => ⟨hp.1 x hx, (hb x (List.mem_cons_of_mem _ hx)).2⟩) hp.2
      simp only [h, if_true, List.singleton_append]
      refine ⟨List.Chain.cons hgap hrec.1, ?_⟩
      intro e he
      rcases List.mem_cons.1 he with he | he
      · rw [he]
        exact List.mem_cons_self _ _
      · exact List.mem_cons_of_mem _ (hrec.2 e he)
    · have hrec := ih btn hw
        (fun x hx => ⟨le_trans ht.1 (hp.1 x hx), (hb x (List.mem_cons_of_mem _ hx)).2⟩) hp.2
      simp only [h, List.nil_append]
      simp only [Bool.false_eq_true, if_false, List.nil_append]
      exact ⟨hrec.1, fun e he => List.mem_cons_of_mem _ (hrec.2 e he)⟩

/-- On a held channel `buttonSelect` returns `true` on the ticks on which
`handleButton` emits. -/
theorem selectEventTimes_held (ts : List Nat) :
    ∀ btn : ButtonState, btn.wasPressed = true →
      selectEventTimes (holdTicks ts) btn = deltaEventTimes (holdTicks ts) btn := by
  induction ts with
  | nil =>
    intro btn _
    simp [holdTicks, deltaEventTimes, selectEventTimes]
  | cons t rest ih =>
    intro btn hw
    have h1 := handleButton_held_btn t btn hw
    have h2 := buttonSelect_held t btn false hw
    rw [holdTicks_cons, deltaEventTimes, selectEventTimes, h1.1, h1.2, h2.1, h2.2]
    by_cases h : repeatDue t btn = true
    · simp only [h, if_true]
      rw [ih { btn with lastRepeat := t } hw]
    · simp only [h, Bool.false_eq_true, if_false]
      rw [ih btn hw]

/-- The last tick of a non-decreasing sequence bounds every tick. -/
theorem le_getLastD_of_pairwise (ts : List Nat) :
    ∀ t0 : Nat, (t0 :: ts).Pairwise (· ≤ ·) → ∀ e ∈ t0 :: ts, e ≤ ts.getLastD t0 := by
  induction ts with
  | nil =>
    intro t0 _ e he
    simp at he
    simp [he]
  | cons t rest ih =>
    intro t0 hp e he
    rw [List.pairwise_cons] at hp
    rw [List.getLastD_cons]
    rcases List.mem_cons.1 he with he | he
    · rw [he]
      exact le_trans (hp.1 t (List.mem_cons_self _ _)) (ih t hp.2 t (List.mem_cons_self _ _))
    · exact ih t hp.2 e he

/-- A hold that starts from the low level: the press emits at `t0` and the
rest of the hold runs on the held channel. -/
theorem deltaEventTimes_press (t0 : Nat) (ts : List Nat) (btn : ButtonState)
    (hlow : btn.wasPressed = false) :
    deltaEventTimes (holdTicks (t0 :: ts)) btn =
        t0 :: deltaEventTimes (holdTicks ts)
          { btn with pressStart := t0, lastRepeat := t0, wasPressed := true } ∧
      selectEventTimes (holdTicks (t0 :: ts)) btn =
        deltaEventTimes (holdTicks ts)
          { btn with pressStart := t0, lastRepeat := t0, wasPressed := true } := by
  obtain ⟨pin, wp, ps, lr, ld⟩ := btn
  simp only at hlow
  subst hlow
  constructor
  · rw [holdTicks_cons, deltaEventTimes]
    simp [handleButton, emitsDelta]
  · rw [holdTicks_cons, selectEventTimes]
    simp only [buttonSelect]
    simp only [Bool.not_false, Bool.and_self, if_true, Bool.false_eq_true, if_false,
      List.nil_append]
    exact selectEventTimes_held ts _ rfl

/-- The events of a hold that starts from the low level: spaced by at least
`REPEAT_INTERVAL` from the press on, and at most `(tn - t0) / REPEAT_INTERVAL`
of them after the press. -/
theorem hold_events (t0 : Nat) (ts : List Nat) (btn : ButtonState)
    (hmono : (t0 :: ts).Pairwise (· ≤ ·)) (hnoroll : ∀ t ∈ t0 :: ts, t < ULONG_RANGE) :
    List.Chain (fun x y => x + REPEAT_INTERVAL ≤ y) t0
        (deltaEventTimes (holdTicks ts)
          { btn with pressStart := t0, lastRepeat := t0, wasPressed := true }) ∧
      (deltaEventTimes (holdTicks ts)
          { btn with pressStart := t0, lastRepeat := t0, wasPressed := true }).length ≤
        (ts.getLastD t0 - t0) / REPEAT_INTERVAL := by
  have hp := hmono
  rw [List.pairwise_cons] at hp
  have h := deltaEventTimes_held ts
    { btn with pressStart := t0, lastRepeat := t0, wasPressed := true } rfl
    (fun t ht => ⟨hp.1 t ht, hnoroll t (List.mem_cons_of_mem _ ht)⟩) hp.2
  refine ⟨h.1, ?_⟩
  have hlast := le_getLastD_of_pairwise ts t0 hmono
  have hlen := chain_gap_length REPEAT_INTERVAL (ts.getLastD t0) _ t0 h.1
    (hlast t0 (List.mem_cons_self _ _))
    (fun e he => hlast e (List.mem_cons_of_mem _ (h.2 e he)))
  rw [Nat.le_div_iff_mul_le (by decide)]
  rw [Nat.mul_comm]
  omega

/-- C7 as stated fails: held over the ticks 0, 200, 400 and 600 ms the channel
emits four delta events (the setpoint goes from 25 to 29), not
`1 + floor(600 / (HOLD_THRESHOLD + REPEAT_INTERVAL)) = 5`. -/
theorem hold_count_formula_fails :
    (deltaEventTimes (holdTicks [0, 200, 400, 600]) ⟨BUTTON_ADD, false, 0, 0, 0⟩).length = 4 ∧
      (handleButtonRun 1 (holdTicks [0, 200, 400, 600])
        ⟨⟨BUTTON_ADD, false, 0, 0, 0⟩, 25, false⟩).target = 29 ∧
      ¬ ((deltaEventTimes (holdTicks [0, 200, 400, 600]) ⟨BUTTON_ADD, false, 0, 0, 0⟩).length =
        1 + (600 - 0) / (HOLD_THRESHOLD + REPEAT_INTERVAL)) := by
  decide

/-- On a held channel whose last repeat is not before its press, the events
of `handleButton` are the ticks the repeat rule picks. -/
theorem deltaEventTimes_held_eq (ts : List Nat) :
    ∀ btn : ButtonState, btn.wasPressed = true → btn.pressStart ≤ btn.lastRepeat →
      (∀ t ∈ ts, btn.lastRepeat ≤ t ∧ t < ULONG_RANGE) → ts.Pairwise (· ≤ ·) →
      deltaEventTimes (holdTicks ts) btn = repeatTicks btn.lastRepeat ts := by
  induction ts with
  | nil =>
    intro btn _ _ _ _
    rfl
  | cons t rest ih =>
    intro btn hw hps hb hp
    have hstep := handleButton_held_btn t btn hw
    rw [List.pairwise_cons] at hp
    have ht := hb t (List.mem_cons_self _ _)
    have e1 := elapsed_of_le (le_trans hps ht.1) ht.2
    have e2 := elapsed_of_le ht.1 ht.2
    rw [holdTicks_cons, deltaEventTimes, hstep.1, hstep.2, repeatTicks]
    by_cases h : btn.lastRepeat + REPEAT_INTERVAL ≤ t
    · have hd : repeatDue t btn = true := by
        simp only [repeatDue, e1, e2, Bool.and_eq_true, decide_eq_true_eq]
        simp only [HOLD_THRESHOLD, REPEAT_INTERVAL] at h ⊢
        omega
      have hrec := ih { btn with lastRepeat := t } hw (le_trans hps ht.1)
        (fun x hx => ⟨hp.1 x hx, (hb x (List.mem_cons_of_mem _ hx)).2⟩) hp.2
      simp only [hd, if_true, if_pos h, List.singleton_append]
      rw [hrec]
    · have hd : repeatDue t btn = false := by
        simp only [repeatDue, e1, e2, Bool.and_eq_false_iff, decide_eq_false_iff_not]
        right
        omega
      have hrec := ih btn hw hps
        (fun x hx => ⟨le_trans ht.1 (hp.1 x hx), (hb x (List.mem_cons_of_mem _ hx)).2⟩) hp.2
      simp only [hd, if_neg h, Bool.false_eq_true, if_false, List.nil_append]
      exact hrec

/-- The repeat rule picks a tick as soon as one lies `REPEAT_INTERVAL` after
the last event. -/
theorem repeatTicks_pos (ts : List Nat) :
    ∀ last : Nat, (∃ t ∈ ts, last + REPEAT_INTERVAL ≤ t) → 1 ≤ (repeatTicks last ts).length := by
  induction ts with
  | nil =>
    intro last h
    obtain ⟨t, ht, _⟩ := h
    cases ht
  | cons t rest ih =>
    intro last h
    rw [repeatTicks]
    by_cases hc : last + REPEAT_INTERVAL ≤ t
    · rw [if_pos hc, List.length_cons]
      omega
    · rw [if_neg hc]
      obtain ⟨x, hx, hxl⟩ := h
      rcases List.mem_cons.1 hx with hx | hx
      · rw [hx] at hxl
        exact absurd hxl hc
      · exact ih last ⟨x, hx, hxl⟩

/-- When consecutive ticks are at least `REPEAT_INTERVAL` apart the repeat
rule picks every tick. -/
theorem repeatTicks_spaced (ts : List Nat) :
    ∀ last : Nat, List.Chain (fun a b => a + REPEAT_INTERVAL ≤ b) last ts →
      repeatTicks last ts = ts := by
  induction ts with
  | nil =>
    intro last _
    rfl
  | cons t rest ih =>
    intro last hc
    rw [List.chain_cons] at hc
    rw [repeatTicks, if_pos hc.1, ih t hc.2]

/-- When consecutive ticks are at most `G` apart the repeat rule leaves at
most `REPEAT_INTERVAL - 1 + G` between events and less than `REPEAT_INTERVAL`
after the last one; `p` is the latest tick seen. -/
theorem repeatTicks_span (G : Nat) (ts : List Nat) :
    ∀ last p : Nat, last ≤ p → p < last + REPEAT_INTERVAL → (p :: ts).Pairwise (· ≤ ·) →
      List.Chain (fun a b => b ≤ a + G) p ts →
      ts.getLastD p ≤
        last + (repeatTicks last ts).length * (REPEAT_INTERVAL - 1 + G) + (REPEAT_INTERVAL - 1) := by
  induction ts with
  | nil =>
    intro last p _ h2 _ _
    simp only [List.getLastD_nil, repeatTicks, List.length_nil, Nat.zero_mul, REPEAT_INTERVAL]
      at h2 ⊢
    omega
  | cons t rest ih =>
    intro last p h1 h2 hp hc
    rw [List.chain_cons] at hc
    rw [List.pairwise_cons] at hp
    have hpt : p ≤ t := hp.1 t (List.mem_cons_self _ _)
    rw [List.getLastD_cons, repeatTicks]
    by_cases h : last + REPEAT_INTERVAL ≤ t
    · have hrec := ih t t le_rfl (by simp only [REPEAT_INTERVAL]; omega) hp.2 hc.2
      rw [if_pos h, List.length_cons, Nat.succ_mul]
      simp only [REPEAT_INTERVAL] at h h2 hrec ⊢
      omega
    · have hrec := ih last t (le_trans h1 hpt) (by omega) hp.2 hc.2
      rw [if_neg h]
      exact hrec

/-- The last tick of a list is the default or one of the ticks. -/
theorem getLastD_eq_or_mem (ts : List Nat) :
    ∀ d : Nat, ts.getLastD d = d ∨ ts.getLastD d ∈ ts := by
  induction ts with
  | nil =>
    intro d
    exact Or.inl rfl
  | cons x xs ih =>
    intro d
    rw [List.getLastD_cons]
    rcases ih x with h | h
    · rw [h]
      exact Or.inr (List.mem_cons_self _ _)
    · exact Or.inr (List.mem_cons_of_mem _ h)

/-- C7 amended: over one continuous hold that starts from the low level, with
non-decreasing timestamps `t0 :: ts` and no rollover, `handleButton` emits on
the first tick and then on exactly the ticks that lie at least
`REPEAT_INTERVAL` after the previous event, and the setpoint moves by `delta`
times the number `n` of events. Hence `n <= 1 + floor((tn - t0) / 100)`;
`n >= 2` once `tn - t0 >= 100`; `tn - t0 <= (n - 1) * (99 + G) + 99` when
consecutive ticks are at most `G` apart; every tick emits when consecutive
ticks are at least 100 ms apart; and a tick on which the level reads low emits
no delta event. -/
theorem hold_delta_count (t0 : Nat) (ts : List Nat) (delta : Int) (c : ButtonCtx)
    (hlow : c.btn.wasPressed = false)
    (hmono : (t0 :: ts).Pairwise (· ≤ ·)) (hnoroll : ∀ t ∈ t0 :: ts, t < ULONG_RANGE) :
    deltaEventTimes (holdTicks (t0 :: ts)) c.btn = t0 :: repeatTicks t0 ts ∧
    (handleButtonRun delta (holdTicks (t0 :: ts)) c).target =
      c.target + delta * ((deltaEventTimes (holdTicks (t0 :: ts)) c.btn).length : Int) ∧
    (deltaEventTimes (holdTicks (t0 :: ts)) c.btn).length ≤
      1 + (ts.getLastD t0 - t0) / REPEAT_INTERVAL ∧
    (t0 + REPEAT_INTERVAL ≤ ts.getLastD t0 →
      2 ≤ (deltaEventTimes (holdTicks (t0 :: ts)) c.btn).length) ∧
    (∀ G : Nat, List.Chain (fun a b => b ≤ a + G) t0 ts →
      ts.getLastD t0 - t0 ≤
        ((deltaEventTimes (holdTicks (t0 :: ts)) c.btn).length - 1) *
          (REPEAT_INTERVAL - 1 + G) + (REPEAT_INTERVAL - 1)) ∧
    (List.Chain (fun a b => a + REPEAT_INTERVAL ≤ b) t0 ts →
      deltaEventTimes (holdTicks (t0 :: ts)) c.btn = t0 :: ts) ∧
    (∀ (now : Nat) (b : ButtonState), emitsDelta false now b = false) := by
  have hpw := hmono
  rw [List.pairwise_cons] at hpw
  have hp := (deltaEventTimes_press t0 ts c.btn hlow).1
  have heq : deltaEventTimes (holdTicks ts)
      { c.btn with pressStart := t0, lastRepeat := t0, wasPressed := true } =
      repeatTicks t0 ts :=
    deltaEventTimes_held_eq ts
      { c.btn with pressStart := t0, lastRepeat := t0, wasPressed := true } rfl le_rfl
      (fun t ht => ⟨hpw.1 t ht, hnoroll t (List.mem_cons_of_mem _ ht)⟩) hpw.2
  have hev : deltaEventTimes (holdTicks (t0 :: ts)) c.btn = t0 :: repeatTicks t0 ts := by
    rw [hp, heq]
  have he := (hold_events t0 ts c.btn hmono hnoroll).2
  rw [heq] at he
  refine ⟨hev, handleButtonRun_target delta _ c, ?_, ?_, ?_, ?_, ?_⟩
  · rw [hev, List.length_cons]
    omega
  · intro hd
    have hmem : ts.getLastD t0 ∈ ts := by
      rcases getLastD_eq_or_mem ts t0 with h | h
      · rw [h] at hd
        simp only [REPEAT_INTERVAL] at hd
        omega
      · exact h
    have hpos := repeatTicks_pos ts t0 ⟨_, hmem, hd⟩
    rw [hev, List.length_cons]
    omega
  · intro G hG
    have hs := repeatTicks_span G ts t0 t0 le_rfl (by simp [REPEAT_INTERVAL]) hmono hG
    rw [hev, List.length_cons, Nat.add_sub_cancel]
    omega
  · intro hc
    rw [hev, repeatTicks_spaced ts t0 hc]
  · intro now b
    simp [emitsDelta, handleButton]

/-- A hold sampled every 60 ms from 1000 ms to 1300 ms emits at 1000, 1120 and
1240 ms and raises the setpoint from 25 to 28; a hold sampled every 200 ms emits
on every tick. -/
theorem hold_delta_count_witness :
    deltaEventTimes (holdTicks [1000, 1060, 1120, 1180, 1240, 1300])
        ⟨BUTTON_ADD, false, 0, 0, 0⟩ = [1000, 1120, 1240] ∧
      (handleButtonRun 1 (holdTicks [1000, 1060, 1120, 1180, 1240, 1300])
        ⟨⟨BUTTON_ADD, false, 0, 0, 0⟩, 25, false⟩).target = 28 ∧
      deltaEventTimes (holdTicks [0, 200, 400, 600]) ⟨BUTTON_ADD, false, 0, 0, 0⟩ =
        [0, 200, 400, 600] :=
  have h := hold_delta_count 1000 [1060, 1120, 1180, 1240, 1300] 1
    ⟨⟨BUTTON_ADD, false, 0, 0, 0⟩, 25, false⟩ rfl (by decide) (by decide)
  have k := hold_delta_count 0 [200, 400, 600] 1
    ⟨⟨BUTTON_ADD, false, 0, 0, 0⟩, 25, false⟩ rfl (by decide) (by decide)
  ⟨h.1.trans (by decide), h.2.1.trans (by decide),
    k.2.2.2.2.2.1 (by simp [REPEAT_INTERVAL])⟩

/-- C9: over one continuous hold that starts from the low level, with
non-decreasing timestamps and no rollover, whatever the tick spacing, any two
consecutive events of `handleButton` (press and repeats) and any two
consecutive `true` results of `buttonSelect` are at least `REPEAT_INTERVAL`
(100 ms) apart, and each channel emits at most `1 + floor(d / REPEAT_INTERVAL)`
events over the hold of duration `d = tn - t0`. -/
theorem hold_rate_cap (t0 : Nat) (ts : List Nat) (btn : ButtonState)
    (hlow : btn.wasPressed = false)
    (hmono : (t0 :: ts).Pairwise (· ≤ ·)) (hnoroll : ∀ t ∈ t0 :: ts, t < ULONG_RANGE) :
    REPEAT_INTERVAL = 100 ∧
      List.Chain' (fun x y => x + REPEAT_INTERVAL ≤ y)
        (deltaEventTimes (holdTicks (t0 :: ts)) btn) ∧
      List.Chain' (fun x y => x + REPEAT_INTERVAL ≤ y)
        (selectEventTimes (holdTicks (t0 :: ts)) btn) ∧
      (deltaEventTimes (holdTicks (t0 :: ts)) btn).length ≤
        1 + (ts.getLastD t0 - t0) / REPEAT_INTERVAL ∧
      (selectEventTimes (holdTicks (t0 :: ts)) btn).length ≤
        1 + (ts.getLastD t0 - t0) / REPEAT_INTERVAL := by
  have hp := deltaEventTimes_press t0 ts btn hlow
  have he := hold_events t0 ts btn hmono hnoroll
  have hc : List.Chain' (fun x y => x + REPEAT_INTERVAL ≤ y)
      (t0 :: deltaEventTimes (holdTicks ts)
        { btn with pressStart := t0, lastRepeat := t0, wasPressed := true }) := he.1
  refine ⟨rfl, ?_, ?_, ?_, ?_⟩
  · rw [hp.1]
    exact hc
  · rw [hp.2]
    exact hc.tail
  · rw [hp.1, List.length_cons]
    omega
  · rw [hp.2]
    omega

/-- A hold sampled every 60 ms from 1000 ms to 1300 ms. -/
theorem hold_rate_cap_witness :
    List.Chain' (fun x y => x + REPEAT_INTERVAL ≤ y)
        (deltaEventTimes (holdTicks [1000, 1060, 1120, 1180, 1240, 1300])
          ⟨BUTTON_ADD, false, 0, 0, 0⟩) ∧
      (selectEventTimes (holdTicks [1000, 1060, 1120, 1180, 1240, 1300])
          ⟨BUTTON_ADD, false, 0, 0, 0⟩).length ≤ 1 + (1300 - 1000) / REPEAT_INTERVAL :=
  have h := hold_rate_cap 1000 [1060, 1120, 1180, 1240, 1300] ⟨BUTTON_ADD, false, 0, 0, 0⟩ rfl
    (by decide) (by decide)
  ⟨h.2.1, h.2.2.2.2⟩

/-! ## Scenario B -/

/-- One more high tick on the held adjust-up channel, without rollover. -/
theorem handleAdd_held (now : Nat) (g : Globals) (hw : g.addButton.wasPressed = true)
    (h1 : g.addButton.pressStart ≤ now) (h2 : g.addButton.lastRepeat ≤ now)
    (h3 : now < ULONG_RANGE) :
    handleAdd true now g =
      if g.addButton.pressStart + HOLD_THRESHOLD ≤ now ∧
          g.addButton.lastRepeat + REPEAT_INTERVAL ≤ now then
        { g with
          addButton := { g.addButton with lastRepeat := now }
          tempset := g.tempset + 1
          forceDisplayUpdate := true }
      else g := by
  obtain ⟨ts, tr, f, ltr, tcd, trq, ldu, ⟨pin, wp, ps, lr, ld⟩, mb, sb, cc, rl, lcd, rq⟩ := g
  simp only at hw h1 h2
  subst hw
  have e1 : elapsed now ps = now - ps := elapsed_of_le h1 h3
  have e2 : elapsed now lr = now - lr := elapsed_of_le h2 h3
  by_cases h : ps + HOLD_THRESHOLD ≤ now ∧ lr + REPEAT_INTERVAL ≤ now
  · have hd : repeatDue now ⟨pin, true, ps, lr, ld⟩ = true := by
      simp only [repeatDue, e1, e2, Bool.and_eq_true, decide_eq_true_eq]
      omega
    simp [handleAdd, handleButton, hd, h]
  · have hd : repeatDue now ⟨pin, true, ps, lr, ld⟩ = false := by
      simp only [repeatDue, e1, e2, Bool.and_eq_false_iff, decide_eq_false_iff_not]
      omega
    simp [handleAdd, handleButton, hd, h]

/-- The fields one more high tick leaves on the held adjust-up channel whose
last repeat is not before its press. -/
theorem handleAdd_held_fields (now : Nat) (g : Globals) (hw : g.addButton.wasPressed = true)
    (h1 : g.addButton.pressStart ≤ g.addButton.lastRepeat) (h2 : g.addButton.lastRepeat ≤ now)
    (h3 : now < ULONG_RANGE) :
    (handleAdd true now g).addButton.wasPressed = true ∧
      (handleAdd true now g).addButton.pressStart = g.addButton.pressStart ∧
      ((g.addButton.lastRepeat + 100 ≤ now ∧
          (handleAdd true now g).addButton.lastRepeat = now ∧
          (handleAdd true now g).tempset = g.tempset + 1) ∨
        (now < g.addButton.lastRepeat + 100 ∧
          (handleAdd true now g).addButton.lastRepeat = g.addButton.lastRepeat ∧
          (handleAdd true now g).tempset = g.tempset)) := by
  rw [handleAdd_held now g hw (le_trans h1 h2) h2 h3]
  by_cases h : g.addButton.lastRepeat + 100 ≤ now
  · have hc : g.addButton.pressStart + HOLD_THRESHOLD ≤ now ∧
        g.addButton.lastRepeat + REPEAT_INTERVAL ≤ now := by
      simp only [HOLD_THRESHOLD, REPEAT_INTERVAL]
      omega
    rw [if_pos hc]
    exact ⟨hw, rfl, Or.inl ⟨h, rfl, rfl⟩⟩
  · have hc : ¬ (g.addButton.pressStart + HOLD_THRESHOLD ≤ now ∧
        g.addButton.lastRepeat + REPEAT_INTERVAL ≤ now) := by
      simp only [HOLD_THRESHOLD, REPEAT_INTERVAL]
      omega
    rw [if_neg hc]
    exact ⟨hw, rfl, Or.inr ⟨by omega, rfl, rfl⟩⟩

/-- C8 as stated fails: held at the ticks 0, 30, 60, 90 and 250 ms (five ticks
spanning 250 ms) the adjust-up channel raises the setpoint by 2, not by 3. -/
theorem scenarioB_plus_two :
    (handleAdd true 250 (handleAdd true 90 (handleAdd true 60 (handleAdd true 30
        (handleAdd true 0 initGlobals))))).tempset = initGlobals.tempset + 2 ∧
      ¬ ((handleAdd true 250 (handleAdd true 90 (handleAdd true 60 (handleAdd true 30
        (handleAdd true 0 initGlobals))))).tempset = initGlobals.tempset + 3) := by
  decide

/-- C8 amended: over 5 ticks `t0 < t1 < t2 < t3 < t4` spanning
`HOLD_THRESHOLD + 2 * REPEAT_INTERVAL` (250 ms), all reading high after a low
level, the five calls `handleButton(addButton, tempset, +1)` raise the setpoint
by 3 when one of the ticks lies between `t0 + 100` and `t0 + 150`, and by 2
otherwise. -/
theorem scenarioB_amended (t0 t1 t2 t3 t4 : Nat) (g : Globals)
    (hlow : g.addButton.wasPressed = false)
    (h01 : t0 < t1) (h12 : t1 < t2) (h23 : t2 < t3) (h34 : t3 < t4)
    (hspan : t4 - t0 = HOLD_THRESHOLD + 2 * REPEAT_INTERVAL) (hnoroll : t4 < ULONG_RANGE) :
    (handleAdd true t4 (handleAdd true t3 (handleAdd true t2 (handleAdd true t1
        (handleAdd true t0 g))))).tempset =
      g.tempset +
        (if (t0 + 100 ≤ t1 ∧ t1 ≤ t0 + 150) ∨ (t0 + 100 ≤ t2 ∧ t2 ≤ t0 + 150) ∨
            (t0 + 100 ≤ t3 ∧ t3 ≤ t0 + 150) then 3 else 2) := by
  simp only [HOLD_THRESHOLD, REPEAT_INTERVAL] at hspan
  have hr : ∀ t, t ≤ t4 → t < ULONG_RANGE := fun t h => lt_of_le_of_lt h hnoroll
  have hpress : handleAdd true t0 g =
      { g with
        addButton := { g.addButton with pressStart := t0, lastRepeat := t0, wasPressed := true }
        tempset := g.tempset + 1
        forceDisplayUpdate := true } := by
    simp [handleAdd, handleButton, hlow]
  have w0 : (handleAdd true t0 g).addButton.wasPressed = true := by rw [hpress]
  have p0 : (handleAdd true t0 g).addButton.pressStart = t0 := by rw [hpress]
  have l0 : (handleAdd true t0 g).addButton.lastRepeat = t0 := by rw [hpress]
  have s0 : (handleAdd true t0 g).tempset = g.tempset + 1 := by rw [hpress]
  generalize handleAdd true t0 g = g0 at w0 p0 l0 s0 ⊢
  obtain ⟨w1, p1, d1⟩ := handleAdd_held_fields t1 g0 w0 (by omega) (by omega) (hr t1 (by omega))
  generalize handleAdd true t1 g0 = g1 at w1 p1 d1 ⊢
  obtain ⟨w2, p2, d2⟩ := handleAdd_held_fields t2 g1 w1 (by omega) (by omega) (hr t2 (by omega))
  generalize handleAdd true t2 g1 = g2 at w2 p2 d2 ⊢
  obtain ⟨w3, p3, d3⟩ := handleAdd_held_fields t3 g2 w2 (by omega) (by omega) (hr t3 (by omega))
  generalize handleAdd true t3 g2 = g3 at w3 p3 d3 ⊢
  obtain ⟨_, _, d4⟩ := handleAdd_held_fields t4 g3 w3 (by omega) (by omega) (hr t4 le_rfl)
  split_ifs <;> omega

/-- Five ticks from 1000 ms to 1250 ms with one tick, 1125 ms, in the window. -/
theorem scenarioB_amended_witness :
    (handleAdd true 1250 (handleAdd true 1190 (handleAdd true 1125 (handleAdd true 1060
        (handleAdd true 1000 initGlobals))))).tempset =
      initGlobals.tempset +
        (if (1000 + 100 ≤ 1060 ∧ 1060 ≤ 1000 + 150) ∨ (1000 + 100 ≤ 1125 ∧ 1125 ≤ 1000 + 150) ∨
            (1000 + 100 ≤ 1190 ∧ 1190 ≤ 1000 + 150) then 3 else 2) :=
  scenarioB_amended 1000 1060 1125 1190 1250 initGlobals rfl (by decide) (by decide) (by decide)
    (by decide) (by decide) (by decide)

/-! ## The mode-select channel -/

/-- The button state and the result of `buttonSelect` do not depend on the
redraw flag. -/
theorem buttonSelect_force (state : Bool) (now : Nat) (btn : ButtonState) (force : Bool) :
    (buttonSelect state now btn force).btn = (buttonSelect state now btn false).btn ∧
      (buttonSelect state now btn force).fired = (buttonSelect state now btn false).fired := by
  unfold buttonSelect
  split_ifs <;> exact ⟨rfl, rfl⟩

/-- When `buttonSelect` returns `true` the level was stored high, reads high,
and both elapsed-time conditions hold. -/
theorem buttonSelect_fired (state : Bool) (now : Nat) (btn : ButtonState) (force : Bool)
    (h : (buttonSelect state now btn force).fired = true) :
    btn.wasPressed = true ∧ state = true ∧ elapsed now btn.pressStart ≥ HOLD_THRESHOLD ∧
      elapsed now btn.lastRepeat ≥ REPEAT_INTERVAL := by
  obtain ⟨pin, wp, ps, lr, ld⟩ := btn
  by_cases hd : repeatDue now ⟨pin, wp, ps, lr, ld⟩ = true
  · have hd2 := hd
    simp only [repeatDue, Bool.and_eq_true, decide_eq_true_eq] at hd2
    cases state <;> cases wp <;> simp [buttonSelect, hd] at h
    exact ⟨rfl, rfl, hd2.1, hd2.2⟩
  · cases state <;> cases wp <;> simp [buttonSelect, hd] at h

/-- The passes of `loop` before line 210 leave the mode-select channel and the
view alone. -/
theorem beforeSelect_select (i : TickInput) (g : Globals) :
    (beforeSelect i g).selectButton = g.selectButton ∧
      (beforeSelect i g).currentControl = g.currentControl := by
  unfold beforeSelect relayStep handleMinus handleAdd acquire
  split_ifs <;> exact ⟨rfl, rfl⟩

/-- The function `controlUpdater` leaves the mode-select channel alone and
flips the view exactly when its argument is `true`. -/
theorem controlUpdater_fields (toggle : Bool) (t1 t2 : Nat) (g : Globals) :
    (controlUpdater toggle t1 t2 g).selectButton = g.selectButton ∧
      (controlUpdater toggle t1 t2 g).currentControl =
        (if toggle then !g.currentControl else g.currentControl) := by
  unfold controlUpdater defultUpdateDisplay readUpdateDisplay
  cases toggle <;> simp only [Bool.false_eq_true, if_false, if_true] <;>
    split_ifs <;> exact ⟨rfl, rfl⟩

/-- What one pass of `loop` does to the mode-select channel and to the view. -/
theorem loop_select (i : TickInput) (g : Globals) :
    selectFired i g = (buttonSelect i.selectLevel i.selectNow g.selectButton false).fired ∧
      (loop i g).selectButton =
        (buttonSelect i.selectLevel i.selectNow g.selectButton false).btn ∧
      (loop i g).currentControl =
        (if selectFired i g then !g.currentControl else g.currentControl) := by
  have hb := beforeSelect_select i g
  have hf := buttonSelect_force i.selectLevel i.selectNow (beforeSelect i g).selectButton
    (beforeSelect i g).forceDisplayUpdate
  rw [hb.1] at hf
  have hl : loop i g = controlUpdater (selectFired i g) i.dispNow1 i.dispNow2
      { beforeSelect i g with
        selectButton := (buttonSelect i.selectLevel i.selectNow (beforeSelect i g).selectButton
          (beforeSelect i g).forceDisplayUpdate).btn
        forceDisplayUpdate := (buttonSelect i.selectLevel i.selectNow
          (beforeSelect i g).selectButton (beforeSelect i g).forceDisplayUpdate).forceDisplayUpdate } :=
    rfl
  have hc := controlUpdater_fields (selectFired i g) i.dispNow1 i.dispNow2
      { beforeSelect i g with
        selectButton := (buttonSelect i.selectLevel i.selectNow (beforeSelect i g).selectButton
          (beforeSelect i g).forceDisplayUpdate).btn
        forceDisplayUpdate := (buttonSelect i.selectLevel i.selectNow
          (beforeSelect i g).selectButton (beforeSelect i g).forceDisplayUpdate).forceDisplayUpdate }
  refine ⟨?_, ?_, ?_⟩
  · unfold selectFired
    rw [hb.1]
    exact hf.2
  · rw [hl, hc.1]
    simp only
    rw [hb.1]
    exact hf.1
  · rw [hl, hc.2]
    simp only
    rw [hb.2]

/-- Running two lists of passes one after the other. -/
theorem runLoop_append (l1 l2 : List TickInput) :
    ∀ g : Globals, runLoop (l1 ++ l2) g = runLoop l2 (runLoop l1 g) := by
  induction l1 with
  | nil => intro g; rfl
  | cons i rest ih => intro g; exact ih (loop i g)

/-- The results of `buttonSelect` over two lists of passes. -/
theorem selectFiredLog_append (l1 l2 : List TickInput) :
    ∀ g : Globals, selectFiredLog (l1 ++ l2) g =
      selectFiredLog l1 g ++ selectFiredLog l2 (runLoop l1 g) := by
  induction l1 with
  | nil => intro g; rfl
  | cons i rest ih =>
    intro g
    show selectFired i g :: selectFiredLog (rest ++ l2) (loop i g) = _
    rw [ih (loop i g)]
    rfl

/-- Passes in which the held mode-select channel reads high less than
`HOLD_THRESHOLD` after its press edge: `buttonSelect` never returns `true`, and
the view and the channel stay as they are. -/
theorem held_below_threshold (t0 : Nat) (highs : List TickInput) :
    ∀ g : Globals, g.selectButton.wasPressed = true → g.selectButton.pressStart = t0 →
      (∀ i ∈ highs, i.selectLevel = true ∧ elapsed i.selectNow t0 < HOLD_THRESHOLD) →
      (∀ fired ∈ selectFiredLog highs g, fired = false) ∧
        (runLoop highs g).currentControl = g.currentControl ∧
        (runLoop highs g).selectButton = g.selectButton := by
  induction highs with
  | nil =>
    intro g _ _ _
    simp [selectFiredLog, runLoop]
  | cons i rest ih =>
    intro g hw hp hh
    obtain ⟨hlev, hel⟩ := hh i (List.mem_cons_self _ _)
    have hl := loop_select i g
    have hd : repeatDue i.selectNow g.selectButton = false := by
      simp only [repeatDue, Bool.and_eq_false_iff, decide_eq_false_iff_not]
      left
      rw [hp]
      omega
    have hs := buttonSelect_held i.selectNow g.selectButton false hw
    rw [hlev, hs.2, hs.1, hd] at hl
    simp only [Bool.false_eq_true, if_false] at hl
    have hrec := ih (loop i g) (by rw [hl.2.1]; exact hw) (by rw [hl.2.1]; exact hp)
      (fun j hj => hh j (List.mem_cons_of_mem _ hj))
    refine ⟨?_, ?_, ?_⟩
    · intro f hf
      simp only [selectFiredLog, List.mem_cons] at hf
      rcases hf with hf | hf
      · rw [hf, hl.1]
      · exact hrec.1 f hf
    · simp only [runLoop]
      rw [hrec.2.1, hl.2.2, hl.1]
      simp
    · simp only [runLoop]
      rw [hrec.2.2, hl.2.1]

/-- Passes in which the mode-select channel reads low: `buttonSelect` returns
`false` and the view stays as it is. -/
theorem low_no_toggle (lows : List TickInput) :
    ∀ g : Globals, (∀ i ∈ lows, i.selectLevel = false) →
      (∀ fired ∈ selectFiredLog lows g, fired = false) ∧
        (runLoop lows g).currentControl = g.currentControl := by
  induction lows with
  | nil =>
    intro g _
    simp [selectFiredLog, runLoop]
  | cons i rest ih =>
    intro g hh
    have hlev := hh i (List.mem_cons_self _ _)
    have hl := loop_select i g
    have hf0 : (buttonSelect false i.selectNow g.selectButton false).fired = false := by
      simp [buttonSelect]
    rw [hlev, hf0] at hl
    have hrec := ih (loop i g) (fun j hj => hh j (List.mem_cons_of_mem _ hj))
    refine ⟨?_, ?_⟩
    · intro f hf
      simp only [selectFiredLog, List.mem_cons] at hf
      rcases hf with hf | hf
      · rw [hf, hl.1]
      · exact hrec.1 f hf
    · simp only [runLoop]
      rw [hrec.2, hl.2.2, hl.1]
      simp

/-- C10: `buttonSelect` returns `false` on the tick of a low-to-high
transition and on every tick where the level reads low, and returns `true`
only when the level was stored high, reads high and
`now - pressStart >= HOLD_THRESHOLD`; hence over a press whose high readings
all lie less than `HOLD_THRESHOLD` after the press edge (followed by any
number of low readings) `buttonSelect` never returns `true` in `loop` and
`currentControl` does not change. -/
theorem buttonSelect_tap_no_toggle (i0 : TickInput) (highs lows : List TickInput) (g : Globals)
    (hlow : g.selectButton.wasPressed = false) (h0 : i0.selectLevel = true)
    (hhigh : ∀ i ∈ highs,
      i.selectLevel = true ∧ elapsed i.selectNow i0.selectNow < HOLD_THRESHOLD)
    (hlows : ∀ i ∈ lows, i.selectLevel = false) :
    (∀ (now : Nat) (btn : ButtonState) (force : Bool), btn.wasPressed = false →
        (buttonSelect true now btn force).fired = false) ∧
      (∀ (now : Nat) (btn : ButtonState) (force : Bool),
        (buttonSelect false now btn force).fired = false) ∧
      (∀ (state : Bool) (now : Nat) (btn : ButtonState) (force : Bool),
        (buttonSelect state now btn force).fired = true →
          btn.wasPressed = true ∧ state = true ∧
            elapsed now btn.pressStart ≥ HOLD_THRESHOLD) ∧
      (∀ fired ∈ selectFiredLog (i0 :: (highs ++ lows)) g, fired = false) ∧
      (runLoop (i0 :: (highs ++ lows)) g).currentControl = g.currentControl := by
  have hl := loop_select i0 g
  have hpress : buttonSelect true i0.selectNow g.selectButton false =
      { fired := false
        btn := { g.selectButton with
          pressStart := i0.selectNow, lastRepeat := i0.selectNow, wasPressed := true }
        forceDisplayUpdate := true } := by
    simp [buttonSelect, hlow]
  rw [h0, hpress] at hl
  simp only at hl
  have hh := held_below_threshold i0.selectNow highs (loop i0 g)
    (by rw [hl.2.1]) (by rw [hl.2.1]) hhigh
  have hlo := low_no_toggle lows (runLoop highs (loop i0 g)) hlows
  refine ⟨?_, ?_, ?_, ?_, ?_⟩
  · intro now btn force hb
    simp [buttonSelect, hb]
  · intro now btn force
    simp [buttonSelect]
  · intro state now btn force hf
    have h := buttonSelect_fired state now btn force hf
    exact ⟨h.1, h.2.1, h.2.2.1⟩
  · intro f hf
    rw [selectFiredLog, selectFiredLog_append, List.mem_cons, List.mem_append] at hf
    rcases hf with hf | hf | hf
    · rw [hf, hl.1]
    · exact hh.1 f hf
    · exact hlo.1 f hf
  · rw [runLoop, runLoop_append, hlo.2, hh.2.1, hl.2.2, hl.1]
    simp

/-- A tap of the mode-select button: high at 1000 and 1020 ms, low at 1040 ms. -/
theorem buttonSelect_tap_no_toggle_witness :
    (∀ fired ∈ selectFiredLog
        [⟨1000, 21, false, 1000, false, 1000, true, 1000, 1000, 1001⟩,
         ⟨1020, 21, false, 1020, false, 1020, true, 1020, 1020, 1021⟩,
         ⟨1040, 21, false, 1040, false, 1040, false, 1040, 1040, 1041⟩] initGlobals,
        fired = false) ∧
      (runLoop
        [⟨1000, 21, false, 1000, false, 1000, true, 1000, 1000, 1001⟩,
         ⟨1020, 21, false, 1020, false, 1020, true, 1020, 1020, 1021⟩,
         ⟨1040, 21, false, 1040, false, 1040, false, 1040, 1040, 1041⟩]
        initGlobals).currentControl = initGlobals.currentControl :=
  (buttonSelect_tap_no_toggle
    ⟨1000, 21, false, 1000, false, 1000, true, 1000, 1000, 1001⟩
    [⟨1020, 21, false, 1020, false, 1020, true, 1020, 1020, 1021⟩]
    [⟨1040, 21, false, 1040, false, 1040, false, 1040, 1040, 1041⟩]
    initGlobals rfl rfl (by decide) (by decide)).2.2.2

/-! ## Temperature acquisition -/

/-- C12: the acquisition step of `loop` at time `now`. Idle: one conversion
request, `lastTempRequestTime = now`, Pending, sample unchanged. Pending: no
request; when `now - lastTempRequestTime >= tempConversionDelay` the sample is
replaced by the sensor value, the machine is Idle and `forceDisplayUpdate` is
set; below the delay nothing changes. The delay is 750 and never changes. -/
theorem acquire_step (now : Nat) (sensor : ℚ) (g : Globals) :
    (g.tempRequested = false →
      acquire now sensor g =
        { g with requests := g.requests + 1, lastTempRequestTime := now, tempRequested := true }) ∧
    (g.tempRequested = true → elapsed now g.lastTempRequestTime ≥ g.tempConversionDelay →
      acquire now sensor g =
        { g with tempread := sensor, tempRequested := false, forceDisplayUpdate := true }) ∧
    (g.tempRequested = true → elapsed now g.lastTempRequestTime < g.tempConversionDelay →
      acquire now sensor g = g) ∧
    (g.tempRequested = true → (acquire now sensor g).requests = g.requests) ∧
    initGlobals.tempConversionDelay = 750 ∧
    (∀ i : TickInput, (loop i g).tempConversionDelay = g.tempConversionDelay) := by
  refine ⟨?_, ?_, ?_, ?_, rfl, ?_⟩
  · intro h
    simp [acquire, h]
  · intro h h2
    simp [acquire, h, h2]
  · intro h h2
    have h3 : ¬ g.tempConversionDelay ≤ elapsed now g.lastTempRequestTime := by omega
    simp [acquire, h, h3]
  · intro h
    unfold acquire
    simp only [h, Bool.not_true, Bool.false_eq_true, if_false]
    split_ifs <;> rfl
  · intro i
    unfold loop selectStep controlUpdater defultUpdateDisplay readUpdateDisplay relayStep
      handleMinus handleAdd acquire
    simp only
    split_ifs <;> rfl

/-- The acquisition machine at 1000 ms: a request when Idle, a read 750 ms
after the request, nothing 749 ms after it. -/
theorem acquire_step_witness :
    acquire 1000 21 initGlobals =
        { initGlobals with requests := 1, lastTempRequestTime := 1000, tempRequested := true } ∧
      acquire 1750 21 { initGlobals with lastTempRequestTime := 1000, tempRequested := true } =
        { initGlobals with lastTempRequestTime := 1000, tempread := 21 } ∧
      acquire 1749 21 { initGlobals with lastTempRequestTime := 1000, tempRequested := true } =
        { initGlobals with lastTempRequestTime := 1000, tempRequested := true } :=
  ⟨(acquire_step 1000 21 initGlobals).1 rfl,
    (acquire_step 1750 21
      { initGlobals with lastTempRequestTime := 1000, tempRequested := true }).2.1 rfl
      (by decide),
    (acquire_step 1749 21
      { initGlobals with lastTempRequestTime := 1000, tempRequested := true }).2.2.1 rfl
      (by decide)⟩

/-! ## The display -/

/-- The control view redraws exactly when the test of line 147 passes. -/
theorem defultUpdateDisplay_eq (t1 t2 : Nat) (g : Globals) :
    defultUpdateDisplay t1 t2 g =
      if redrawDue t1 g then
        { g with
          lcd := g.lcd ++ defaultFrame g.tempset g.tempread
          lastDisplayUpdate := t2
          forceDisplayUpdate := false }
      else g := rfl

/-- The read-only view redraws exactly when the test of line 163 passes. -/
theorem readUpdateDisplay_eq (t1 t2 : Nat) (g : Globals) :
    readUpdateDisplay t1 t2 g =
      if redrawDue t1 g then
        { g with
          lcd := g.lcd ++ readFrame g.tempread
          lastDisplayUpdate := t2
          forceDisplayUpdate := false }
      else g := rfl

/-- A frame written to the display makes the log longer. -/
theorem append_frame_ne (lcd frame : List LcdOp) (h : frame ≠ []) : lcd ++ frame ≠ lcd := by
  intro he
  have hl := congrArg List.length he
  rw [List.length_append] at hl
  have hpos : 0 < frame.length := List.length_pos.2 h
  omega

/-- The test of lines 147 and 163 written out. -/
theorem redrawDue_iff (t1 : Nat) (g : Globals) :
    redrawDue t1 g = true ↔
      (g.forceDisplayUpdate = true ∨ elapsed t1 g.lastDisplayUpdate ≥ 1000) := by
  simp [redrawDue]

/-- C13: for both views, with `t1` the clock read by the test and `t2` the
clock read by the stamp: a redraw (a write to the display) happens exactly when
`forceDisplayUpdate` is set or `t1 - lastDisplayUpdate >= 1000`; after a redraw
`forceDisplayUpdate` is false and `lastDisplayUpdate` is the clock just read;
without a redraw the state is unchanged and nothing is written. -/
theorem redraw_policy (t1 t2 : Nat) (g : Globals) :
    ((g.forceDisplayUpdate = true ∨ elapsed t1 g.lastDisplayUpdate ≥ 1000) →
      defultUpdateDisplay t1 t2 g =
          { g with
            lcd := g.lcd ++ defaultFrame g.tempset g.tempread
            lastDisplayUpdate := t2
            forceDisplayUpdate := false } ∧
        readUpdateDisplay t1 t2 g =
          { g with
            lcd := g.lcd ++ readFrame g.tempread
            lastDisplayUpdate := t2
            forceDisplayUpdate := false }) ∧
    (¬ (g.forceDisplayUpdate = true ∨ elapsed t1 g.lastDisplayUpdate ≥ 1000) →
      defultUpdateDisplay t1 t2 g = g ∧ readUpdateDisplay t1 t2 g = g) ∧
    ((defultUpdateDisplay t1 t2 g).lcd ≠ g.lcd ↔
      (g.forceDisplayUpdate = true ∨ elapsed t1 g.lastDisplayUpdate ≥ 1000)) ∧
    ((readUpdateDisplay t1 t2 g).lcd ≠ g.lcd ↔
      (g.forceDisplayUpdate = true ∨ elapsed t1 g.lastDisplayUpdate ≥ 1000)) := by
  rw [defultUpdateDisplay_eq, readUpdateDisplay_eq, ← redrawDue_iff]
  by_cases h : redrawDue t1 g = true
  · rw [if_pos h, if_pos h]
    refine ⟨fun _ => ⟨rfl, rfl⟩, fun hn => absurd h hn, ?_, ?_⟩
    · exact ⟨fun _ => h, fun _ => append_frame_ne _ _ (by simp [defaultFrame])⟩
    · exact ⟨fun _ => h, fun _ => append_frame_ne _ _ (by simp [readFrame])⟩
  · rw [if_neg h, if_neg h]
    exact ⟨fun hp => absurd hp h, fun _ => ⟨rfl, rfl⟩,
      ⟨fun hne => absurd rfl hne, fun hp => absurd hp h⟩,
      ⟨fun hne => absurd rfl hne, fun hp => absurd hp h⟩⟩

/-- The control view one second after the last redraw, and half a second
after it with the flag clear. -/
theorem redraw_policy_witness :
    defultUpdateDisplay 2000 2004
        { initGlobals with forceDisplayUpdate := false, lastDisplayUpdate := 1000 } =
      { initGlobals with
        lcd := defaultFrame 25 0, lastDisplayUpdate := 2004, forceDisplayUpdate := false } ∧
    readUpdateDisplay 1500 1504
        { initGlobals with forceDisplayUpdate := false, lastDisplayUpdate := 1000 } =
      { initGlobals with forceDisplayUpdate := false, lastDisplayUpdate := 1000 } :=
  ⟨((redraw_policy 2000 2004
      { initGlobals with forceDisplayUpdate := false, lastDisplayUpdate := 1000 }).1
      (Or.inr (by decide))).1,
    ((redraw_policy 1500 1504
      { initGlobals with forceDisplayUpdate := false, lastDisplayUpdate := 1000 }).2.1
      (by decide)).2⟩

/-! ## One pass of the loop and the display -/

/-- A pass of `loop` ends with `controlUpdater` on the state `buttonSelect`
leaves. -/
theorem loop_eq_controlUpdater (i : TickInput) (g : Globals) :
    loop i g = controlUpdater (selectFired i g) i.dispNow1 i.dispNow2 (afterSelect i g) := rfl

/-- The function `controlUpdater` written out: the view after the toggle, and
one redraw of that view when the test passes. -/
theorem controlUpdater_eq (toggle : Bool) (t1 t2 : Nat) (g : Globals) :
    controlUpdater toggle t1 t2 g =
      if redrawDue t1 g then
        { g with
          currentControl := (if toggle then !g.currentControl else g.currentControl)
          lcd := g.lcd ++
            (if (if toggle then !g.currentControl else g.currentControl) = true then
              defaultFrame g.tempset g.tempread
            else readFrame g.tempread)
          lastDisplayUpdate := t2
          forceDisplayUpdate := false }
      else
        { g with currentControl := (if toggle then !g.currentControl else g.currentControl) } := by
  obtain ⟨ts, tr, f, ltr, tcd, trq, ldu, ab, mb, sb, cc, rl, lcd, rq⟩ := g
  cases toggle <;> cases cc <;>
    simp only [controlUpdater, defultUpdateDisplay_eq, readUpdateDisplay_eq, redrawDue,
      Bool.false_eq_true, if_false, if_true, Bool.not_true, Bool.not_false]

/-- Before `controlUpdater` a pass of `loop` writes nothing to the display. -/
theorem afterSelect_lcd (i : TickInput) (g : Globals) : (afterSelect i g).lcd = g.lcd := by
  unfold afterSelect beforeSelect relayStep handleMinus handleAdd acquire
  simp only
  split_ifs <;> rfl

/-- The acquisition step sets the redraw flag when it stores a sample and
never clears it. -/
theorem acquire_force (now : Nat) (sensor : ℚ) (g : Globals)
    (h : g.forceDisplayUpdate = true ∨
      (g.tempRequested = true ∧ elapsed now g.lastTempRequestTime ≥ g.tempConversionDelay)) :
    (acquire now sensor g).forceDisplayUpdate = true := by
  unfold acquire
  rcases h with h | ⟨h1, h2⟩
  · split_ifs <;> simp [h]
  · simp [h1, h2]

/-- The acquisition step leaves the three button channels alone. -/
theorem acquire_buttons (now : Nat) (sensor : ℚ) (g : Globals) :
    (acquire now sensor g).addButton = g.addButton ∧
      (acquire now sensor g).minusButton = g.minusButton := by
  unfold acquire
  split_ifs <;> exact ⟨rfl, rfl⟩

/-- The function `handleButton` sets the redraw flag when it emits and never
clears it. -/
theorem handleButton_force (state : Bool) (now : Nat) (delta : Int) (c : ButtonCtx)
    (h : c.forceDisplayUpdate = true ∨ emitsDelta state now c.btn = true) :
    (handleButton state now delta c).forceDisplayUpdate = true := by
  obtain ⟨⟨pin, wp, ps, lr, ld⟩, target, force⟩ := c
  by_cases hd : repeatDue now ⟨pin, wp, ps, lr, ld⟩ = true <;>
    cases state <;> cases wp <;> cases force <;>
    simp [handleButton, emitsDelta, hd] at h ⊢

/-- The function `buttonSelect` sets the redraw flag when it returns `true`
and never clears it. -/
theorem buttonSelect_force_set (state : Bool) (now : Nat) (btn : ButtonState) (force : Bool)
    (h : force = true ∨ (buttonSelect state now btn force).fired = true) :
    (buttonSelect state now btn force).forceDisplayUpdate = true := by
  obtain ⟨pin, wp, ps, lr, ld⟩ := btn
  by_cases hd : repeatDue now ⟨pin, wp, ps, lr, ld⟩ = true <;>
    cases state <;> cases wp <;> cases force <;>
    simp [buttonSelect, hd] at h ⊢

/-- A pass of `loop` in which a sample is stored, an adjust channel emits or
`buttonSelect` returns `true` reaches `controlUpdater` with the redraw flag
set. -/
theorem afterSelect_force (i : TickInput) (g : Globals)
    (h : (g.tempRequested = true ∧ elapsed i.now g.lastTempRequestTime ≥ g.tempConversionDelay) ∨
      emitsDelta i.addLevel i.addNow g.addButton = true ∨
      emitsDelta i.minusLevel i.minusNow g.minusButton = true ∨
      selectFired i g = true) :
    (afterSelect i g).forceDisplayUpdate = true := by
  have hb := acquire_buttons i.now i.sensor g
  have h1 : (g.tempRequested = true ∧
      elapsed i.now g.lastTempRequestTime ≥ g.tempConversionDelay) →
      (acquire i.now i.sensor g).forceDisplayUpdate = true :=
    fun hs => acquire_force i.now i.sensor g (Or.inr hs)
  have h2 : ((acquire i.now i.sensor g).forceDisplayUpdate = true ∨
      emitsDelta i.addLevel i.addNow g.addButton = true) →
      (handleAdd i.addLevel i.addNow (acquire i.now i.sensor g)).forceDisplayUpdate = true := by
    intro hs
    rw [← hb.1] at hs
    exact handleButton_force i.addLevel i.addNow 1 _ hs
  have hm : (handleAdd i.addLevel i.addNow (acquire i.now i.sensor g)).minusButton =
      g.minusButton := hb.2
  have h3 : ((handleAdd i.addLevel i.addNow (acquire i.now i.sensor g)).forceDisplayUpdate = true ∨
      emitsDelta i.minusLevel i.minusNow g.minusButton = true) →
      (beforeSelect i g).forceDisplayUpdate = true := by
    intro hs
    rw [← hm] at hs
    exact handleButton_force i.minusLevel i.minusNow (-1) _ hs
  have h4 : ((beforeSelect i g).forceDisplayUpdate = true ∨ selectFired i g = true) →
      (afterSelect i g).forceDisplayUpdate = true := by
    intro hs
    exact buttonSelect_force_set i.selectLevel i.selectNow _ _ hs
  rcases h with h | h | h | h
  · exact h4 (Or.inl (h3 (Or.inl (h2 (Or.inl (h1 h))))))
  · exact h4 (Or.inl (h3 (Or.inl (h2 (Or.inr h)))))
  · exact h4 (Or.inl (h3 (Or.inr h)))
  · exact h4 (Or.inr h)

/-- What a pass of `loop` leaves on the display side: the view after the
toggle and, when the test of the display function passes, one frame of that
view with the values the pass computed. -/
theorem loop_display (i : TickInput) (g : Globals) :
    (loop i g).currentControl =
        (if selectFired i g then !g.currentControl else g.currentControl) ∧
      (loop i g).tempset = (afterSelect i g).tempset ∧
      (loop i g).tempread = (afterSelect i g).tempread ∧
      (redrawDue i.dispNow1 (afterSelect i g) = true →
        (loop i g).lcd = g.lcd ++
            (if (loop i g).currentControl = true then
              defaultFrame (loop i g).tempset (loop i g).tempread
            else readFrame (loop i g).tempread) ∧
          (loop i g).lastDisplayUpdate = i.dispNow2 ∧
          (loop i g).forceDisplayUpdate = false) ∧
      (redrawDue i.dispNow1 (afterSelect i g) = false →
        (loop i g).lcd = g.lcd ∧
          (loop i g).lastDisplayUpdate = (afterSelect i g).lastDisplayUpdate ∧
          (loop i g).forceDisplayUpdate = false) := by
  have hcc : (afterSelect i g).currentControl = g.currentControl := (beforeSelect_select i g).2
  have hlcd := afterSelect_lcd i g
  rw [loop_eq_controlUpdater, controlUpdater_eq]
  by_cases h : redrawDue i.dispNow1 (afterSelect i g) = true
  · rw [if_pos h]
    refine ⟨?_, rfl, rfl, fun _ => ⟨?_, rfl, rfl⟩, fun hn => ?_⟩
    · simp only [hcc]
    · simp only [hcc, hlcd]
    · rw [h] at hn
      cases hn
  · rw [if_neg h]
    refine ⟨?_, rfl, rfl, fun hp => absurd hp h, fun _ => ⟨hlcd, rfl, ?_⟩⟩
    · simp only [hcc]
    · simp only [redrawDue, Bool.or_eq_true, not_or, Bool.not_eq_true] at h
      exact h.1

/-- C14: in every pass of `loop` from every state at most one redraw is
executed (the display log is unchanged or grows by one frame); when an adjust
channel emits, a new sample is stored or `buttonSelect` returns `true`, a
redraw is executed in that pass whatever the time since the last one; and
`forceDisplayUpdate` is false at the end of the pass. -/
theorem loop_redraw (i : TickInput) (g : Globals) :
    ((loop i g).lcd = g.lcd ∨
      (loop i g).lcd = g.lcd ++ defaultFrame (loop i g).tempset (loop i g).tempread ∨
      (loop i g).lcd = g.lcd ++ readFrame (loop i g).tempread) ∧
    (((g.tempRequested = true ∧
          elapsed i.now g.lastTempRequestTime ≥ g.tempConversionDelay) ∨
        emitsDelta i.addLevel i.addNow g.addButton = true ∨
        emitsDelta i.minusLevel i.minusNow g.minusButton = true ∨
        selectFired i g = true) →
      (loop i g).lcd ≠ g.lcd ∧ (loop i g).lastDisplayUpdate = i.dispNow2) ∧
    (loop i g).forceDisplayUpdate = false := by
  have hd := loop_display i g
  by_cases h : redrawDue i.dispNow1 (afterSelect i g) = true
  · obtain ⟨h1, h2, h3⟩ := hd.2.2.2.1 h
    refine ⟨?_, ?_, h3⟩
    · by_cases hc : (loop i g).currentControl = true
      · rw [if_pos hc] at h1
        exact Or.inr (Or.inl h1)
      · rw [if_neg hc] at h1
        exact Or.inr (Or.inr h1)
    · intro _
      refine ⟨?_, h2⟩
      rw [h1]
      apply append_frame_ne
      split_ifs <;> simp [defaultFrame, readFrame]
  · have hf : redrawDue i.dispNow1 (afterSelect i g) = false := by
      simpa using h
    obtain ⟨h1, _, h3⟩ := hd.2.2.2.2 hf
    refine ⟨Or.inl h1, ?_, h3⟩
    intro hev
    have hforce := afterSelect_force i g hev
    simp [redrawDue, hforce] at hf

/-- C15: `controlUpdater(true)` flips `currentControl`, `controlUpdater(false)`
leaves it unchanged, two toggles restore the view, and in a pass of `loop` in
which `buttonSelect` returns `true` the view flips and one frame of the newly
selected view is written in that same pass. -/
theorem toggle_redraws (i : TickInput) (t1 t2 t3 t4 : Nat) (g : Globals) :
    (controlUpdater true t1 t2 g).currentControl = (!g.currentControl) ∧
    (controlUpdater false t1 t2 g).currentControl = g.currentControl ∧
    (controlUpdater true t3 t4 (controlUpdater true t1 t2 g)).currentControl =
      g.currentControl ∧
    (selectFired i g = true →
      (loop i g).currentControl = (!g.currentControl) ∧
        (loop i g).lcd = g.lcd ++
          (if (!g.currentControl) = true then
            defaultFrame (loop i g).tempset (loop i g).tempread
          else readFrame (loop i g).tempread) ∧
        (loop i g).lastDisplayUpdate = i.dispNow2) := by
  have c1 := (controlUpdater_fields true t1 t2 g).2
  have c2 := (controlUpdater_fields false t1 t2 g).2
  have c3 := (controlUpdater_fields true t3 t4 (controlUpdater true t1 t2 g)).2
  simp only [if_true, Bool.false_eq_true, if_false] at c1 c2 c3
  refine ⟨c1, c2, ?_, ?_⟩
  · rw [c3, c1]
    simp
  · intro hf
    have hd := loop_display i g
    have hforce := afterSelect_force i g (Or.inr (Or.inr (Or.inr hf)))
    have hdue : redrawDue i.dispNow1 (afterSelect i g) = true := by
      simp [redrawDue, hforce]
    obtain ⟨h1, h2, _⟩ := hd.2.2.2.1 hdue
    have hcc : (loop i g).currentControl = (!g.currentControl) := by
      rw [hd.1, hf]
      simp
    rw [hcc] at h1
    exact ⟨hcc, h1, h2⟩

/-! ## The two button functions side by side -/

/-- The button state either function leaves, written out. -/
theorem buttonSelect_btn (state : Bool) (now : Nat) (btn : ButtonState) (force : Bool) :
    (buttonSelect state now btn force).btn =
      (if state = true ∧ btn.wasPressed = false then
        { btn with pressStart := now, lastRepeat := now, wasPressed := true }
      else if state = true ∧ repeatDue now btn = true then { btn with lastRepeat := now }
      else { btn with wasPressed := state }) := by
  obtain ⟨pin, wp, ps, lr, ld⟩ := btn
  by_cases hd : repeatDue now ⟨pin, wp, ps, lr, ld⟩ = true <;>
    cases state <;> cases wp <;> simp [buttonSelect, hd]

/-- Both functions leave the same button state. -/
theorem handleButton_btn_select (state : Bool) (now : Nat) (delta : Int) (c : ButtonCtx)
    (force : Bool) :
    (handleButton state now delta c).btn = (buttonSelect state now c.btn force).btn := by
  obtain ⟨⟨pin, wp, ps, lr, ld⟩, target, f⟩ := c
  by_cases hd : repeatDue now ⟨pin, wp, ps, lr, ld⟩ = true <;>
    cases state <;> cases wp <;> simp [handleButton, buttonSelect, hd]

/-- Both functions leave the same redraw flag. -/
theorem handleButton_force_select (state : Bool) (now : Nat) (delta : Int) (c : ButtonCtx) :
    (handleButton state now delta c).forceDisplayUpdate =
      (buttonSelect state now c.btn c.forceDisplayUpdate).forceDisplayUpdate := by
  obtain ⟨⟨pin, wp, ps, lr, ld⟩, target, f⟩ := c
  by_cases hd : repeatDue now ⟨pin, wp, ps, lr, ld⟩ = true <;>
    cases state <;> cases wp <;> simp [handleButton, buttonSelect, hd]

/-- The result of `buttonSelect` and the event of `handleButton`, written
out. -/
theorem fired_emits (state : Bool) (now : Nat) (btn : ButtonState) (force : Bool) :
    (buttonSelect state now btn force).fired =
        (state && btn.wasPressed && repeatDue now btn) ∧
      emitsDelta state now btn =
        (state && (!btn.wasPressed || repeatDue now btn)) := by
  obtain ⟨pin, wp, ps, lr, ld⟩ := btn
  by_cases hd : repeatDue now ⟨pin, wp, ps, lr, ld⟩ = true <;>
    cases state <;> cases wp <;> simp [handleButton, buttonSelect, emitsDelta, hd]

/-- C18: on the same button state, level and clock, `buttonSelect` leaves the
button state `handleButton` leaves, sets `forceDisplayUpdate` exactly when
`handleButton` does, returns `true` exactly when `handleButton` emits a repeat
(held) event, and returns `false` when `handleButton` emits a press event or
no event. -/
theorem buttonSelect_same_timing (state : Bool) (now : Nat) (delta : Int) (btn : ButtonState)
    (target : Int) (force : Bool) :
    (buttonSelect state now btn force).btn =
        (handleButton state now delta ⟨btn, target, force⟩).btn ∧
    (buttonSelect state now btn force).forceDisplayUpdate =
        (handleButton state now delta ⟨btn, target, force⟩).forceDisplayUpdate ∧
    ((buttonSelect state now btn force).fired = true ↔
      (btn.wasPressed = true ∧ emitsDelta state now btn = true)) ∧
    ((btn.wasPressed = false ∨ emitsDelta state now btn = false) →
      (buttonSelect state now btn force).fired = false) := by
  have h1 := handleButton_btn_select state now delta ⟨btn, target, force⟩ force
  have h2 := handleButton_force_select state now delta ⟨btn, target, force⟩
  have h3 := fired_emits state now btn force
  refine ⟨h1.symm, h2.symm, ?_, ?_⟩
  · rw [h3.1, h3.2]
    cases state <;> cases btn.wasPressed <;> cases repeatDue now btn <;> simp
  · rw [h3.1, h3.2]
    cases state <;> cases btn.wasPressed <;> cases repeatDue now btn <;> simp

/-! ## The button invariant -/

/-- A call of either function keeps `pressStart <= lastRepeat <= clock` when
the clock does not go back. -/
theorem buttonStep_invariant (k : ChannelCall) (btn : ButtonState) (T : Nat)
    (h1 : btn.pressStart ≤ btn.lastRepeat) (h2 : btn.lastRepeat ≤ T) (h3 : T ≤ k.now) :
    (buttonStep k btn).pressStart ≤ (buttonStep k btn).lastRepeat ∧
      (buttonStep k btn).lastRepeat ≤ k.now := by
  have hs : buttonStep k btn = (buttonSelect k.level k.now btn false).btn := by
    unfold buttonStep
    cases hk : k.call with
    | handle delta => exact handleButton_btn_select k.level k.now delta ⟨btn, 0, false⟩ false
    | select => rfl
  rw [hs, buttonSelect_btn]
  split_ifs
  · exact ⟨le_rfl, le_rfl⟩
  · exact ⟨by simp only; omega, le_rfl⟩
  · exact ⟨h1, by simp only; omega⟩

/-- A sequence of calls with a non-decreasing clock keeps
`pressStart <= lastRepeat`. -/
theorem buttonRun_invariant (calls : List ChannelCall) :
    ∀ (btn : ButtonState) (T : Nat), btn.pressStart ≤ btn.lastRepeat → btn.lastRepeat ≤ T →
      (∀ k ∈ calls, T ≤ k.now) → calls.Pairwise (fun a b => a.now ≤ b.now) →
      (buttonRun calls btn).pressStart ≤ (buttonRun calls btn).lastRepeat := by
  induction calls with
  | nil =>
    intro btn T h1 _ _ _
    exact h1
  | cons k rest ih =>
    intro btn T h1 h2 h3 hp
    rw [List.pairwise_cons] at hp
    have hk := buttonStep_invariant k btn T h1 h2 (h3 k (List.mem_cons_self _ _))
    exact ih (buttonStep k btn) k.now hk.1 hk.2 hp.1 hp.2

/-- C16: from the initial state of a button channel, after any sequence of
`handleButton` or `buttonSelect` calls whose timestamps do not decrease (no
clock rollover), a state with `wasPressed = true` has
`lastRepeat >= pressStart`. -/
theorem button_invariant (pin : Nat) (calls : List ChannelCall)
    (hmono : calls.Pairwise (fun a b => a.now ≤ b.now)) :
    (initButton pin).wasPressed = false ∧ (initButton pin).pressStart = 0 ∧
      (initButton pin).lastRepeat = 0 ∧
      ((buttonRun calls (initButton pin)).wasPressed = true →
        (buttonRun calls (initButton pin)).lastRepeat ≥
          (buttonRun calls (initButton pin)).pressStart) :=
  ⟨rfl, rfl, rfl, fun _ =>
    buttonRun_invariant calls (initButton pin) 0 le_rfl le_rfl (fun _ _ => Nat.zero_le _) hmono⟩

/-- The adjust-up channel pressed at 1000 ms, held at 1150 and 1300 ms. -/
theorem button_invariant_witness :
    (buttonRun [⟨ButtonCall.handle 1, true, 1000⟩, ⟨ButtonCall.handle 1, true, 1150⟩,
        ⟨ButtonCall.handle 1, true, 1300⟩] (initButton BUTTON_ADD)).lastRepeat ≥
      (buttonRun [⟨ButtonCall.handle 1, true, 1000⟩, ⟨ButtonCall.handle 1, true, 1150⟩,
        ⟨ButtonCall.handle 1, true, 1300⟩] (initButton BUTTON_ADD)).pressStart :=
  (button_invariant BUTTON_ADD [⟨ButtonCall.handle 1, true, 1000⟩,
    ⟨ButtonCall.handle 1, true, 1150⟩, ⟨ButtonCall.handle 1, true, 1300⟩]
    (by decide)).2.2.2 (by decide)

/-! ## The hold threshold and the repeat interval -/

/-- C19: in a held state reached from the initial state by calls whose
timestamps do not decrease, at every time `now >= lastRepeat` without rollover
the repeat condition of lines 100 and 121 holds exactly when
`now - lastRepeat >= REPEAT_INTERVAL`; hence after a press at `t0` no repeat
fires before `t0 + REPEAT_INTERVAL`, in particular not at
`t0 + HOLD_THRESHOLD`. -/
theorem hold_threshold_redundant (pin : Nat) (calls : List ChannelCall) (now : Nat)
    (hmono : calls.Pairwise (fun a b => a.now ≤ b.now))
    (_hheld : (buttonRun calls (initButton pin)).wasPressed = true)
    (hnow : (buttonRun calls (initButton pin)).lastRepeat ≤ now)
    (hnoroll : now < ULONG_RANGE) :
    ((elapsed now (buttonRun calls (initButton pin)).pressStart ≥ HOLD_THRESHOLD ∧
        elapsed now (buttonRun calls (initButton pin)).lastRepeat ≥ REPEAT_INTERVAL) ↔
      elapsed now (buttonRun calls (initButton pin)).lastRepeat ≥ REPEAT_INTERVAL) ∧
    repeatDue now (buttonRun calls (initButton pin)) =
      decide (elapsed now (buttonRun calls (initButton pin)).lastRepeat ≥ REPEAT_INTERVAL) ∧
    (∀ (btn : ButtonState) (t0 t : Nat), t0 ≤ t → t < t0 + REPEAT_INTERVAL → t < ULONG_RANGE →
      repeatDue t { btn with pressStart := t0, lastRepeat := t0, wasPressed := true } = false) ∧
    HOLD_THRESHOLD < REPEAT_INTERVAL := by
  have hinv := buttonRun_invariant calls (initButton pin) 0 le_rfl le_rfl
    (fun _ _ => Nat.zero_le _) hmono
  have e1 := elapsed_of_le (le_trans hinv hnow) hnoroll
  have e2 := elapsed_of_le hnow hnoroll
  have hiff : (elapsed now (buttonRun calls (initButton pin)).pressStart ≥ HOLD_THRESHOLD ∧
        elapsed now (buttonRun calls (initButton pin)).lastRepeat ≥ REPEAT_INTERVAL) ↔
      elapsed now (buttonRun calls (initButton pin)).lastRepeat ≥ REPEAT_INTERVAL := by
    rw [e1, e2]
    simp only [HOLD_THRESHOLD, REPEAT_INTERVAL]
    omega
  refine ⟨hiff, ?_, ?_, by decide⟩
  · unfold repeatDue
    by_cases h : elapsed now (buttonRun calls (initButton pin)).lastRepeat ≥ REPEAT_INTERVAL
    · have h2 := hiff.2 h
      simp [h, h2.1]
    · simp [h]
  · intro btn t0 t h1 h2 h3
    have e := elapsed_of_le h1 h3
    simp only [repeatDue, Bool.and_eq_false_iff, decide_eq_false_iff_not]
    right
    rw [e]
    omega

/-- The adjust-up channel pressed at 1000 ms and read again at 1050 ms. -/
theorem hold_threshold_redundant_witness :
    repeatDue 1050 (buttonRun [⟨ButtonCall.handle 1, true, 1000⟩] (initButton BUTTON_ADD)) =
      decide (elapsed 1050
        (buttonRun [⟨ButtonCall.handle 1, true, 1000⟩] (initButton BUTTON_ADD)).lastRepeat ≥
          REPEAT_INTERVAL) :=
  (hold_threshold_redundant BUTTON_ADD [⟨ButtonCall.handle 1, true, 1000⟩] 1050
    (by decide) (by decide) (by decide) (by decide)).2.1

/-! ## Clock rollover -/

/-- C20: with 32-bit timestamps the difference the program computes between a
clock value `d` milliseconds after `s` and `s` is `d` for every `d < 2^32`,
also when the clock wraps in between, so the tests of `handleButton` and
`buttonSelect`, of the display refresh and of the temperature acquisition give
the result an unbounded clock gives. -/
theorem elapsed_rollover (s d : Nat) (hs : s < ULONG_RANGE) (hd : d < ULONG_RANGE) :
    ULONG_RANGE = 2 ^ 32 ∧
    elapsed ((s + d) % ULONG_RANGE) s = d ∧
    (∀ (btn : ButtonState), btn.pressStart = s → btn.lastRepeat = s →
      repeatDue ((s + d) % ULONG_RANGE) btn =
        (decide (d ≥ HOLD_THRESHOLD) && decide (d ≥ REPEAT_INTERVAL))) ∧
    (∀ (g : Globals), g.lastDisplayUpdate = s →
      redrawDue ((s + d) % ULONG_RANGE) g = (g.forceDisplayUpdate || decide (d ≥ 1000))) ∧
    (∀ (g : Globals) (sensor : ℚ), g.lastTempRequestTime = s → g.tempRequested = true →
      acquire ((s + d) % ULONG_RANGE) sensor g =
        if d ≥ g.tempConversionDelay then
          { g with tempread := sensor, tempRequested := false, forceDisplayUpdate := true }
        else g) := by
  have he : elapsed ((s + d) % ULONG_RANGE) s = d := by
    unfold elapsed ULONG_RANGE at *
    omega
  refine ⟨by decide, he, ?_, ?_, ?_⟩
  · intro btn h1 h2
    simp only [repeatDue, h1, h2, he]
  · intro g h1
    simp only [redrawDue, h1, he]
  · intro g sensor h1 h2
    simp only [acquire, h1, h2, he, Bool.not_true, Bool.false_eq_true, if_false]

/-- A press 96 ms before the clock wraps, read 104 ms later. -/
theorem elapsed_rollover_witness :
    elapsed ((4294967200 + 104) % ULONG_RANGE) 4294967200 = 104 ∧
      (4294967200 + 104) % ULONG_RANGE = 8 :=
  ⟨(elapsed_rollover 4294967200 104 (by decide) (by decide)).2.1, by decide⟩

/-! ## The view and the actuator -/

/-- The relay level a pass of `loop` leaves is the one `updateRelay` computes
from the view the pass starts with. -/
theorem loop_relay (i : TickInput) (g : Globals) :
    (loop i g).relay =
      updateRelay g.currentControl (beforeSelect i g).tempread (beforeSelect i g).tempset
        g.relay := by
  have hr : (loop i g).relay = (afterSelect i g).relay := by
    rw [loop_eq_controlUpdater, controlUpdater_eq]
    split_ifs <;> rfl
  rw [hr]
  unfold afterSelect beforeSelect relayStep handleMinus handleAdd acquire
  simp only
  split_ifs <;> rfl

/-- C17 as stated fails: from the initial state, the mode-select button pressed
in one pass and still held 154 ms later toggles the view to read-only in the
second pass, which ends with the read-only view active and the actuator ON. -/
theorem read_only_with_relay_on :
    (runLoop
        [⟨1000, 21, false, 1001, false, 1001, true, 1002, 1002, 1006⟩,
         ⟨1154, 21, false, 1155, false, 1155, true, 1156, 1156, 1160⟩]
        initGlobals).currentControl = false ∧
      (runLoop
        [⟨1000, 21, false, 1001, false, 1001, true, 1002, 1002, 1006⟩,
         ⟨1154, 21, false, 1155, false, 1155, true, 1156, 1156, 1160⟩]
        initGlobals).relay = true := by
  decide

/-- C17 amended: a pass of `loop` that starts with the read-only view active
ends with the actuator OFF; so does a pass that ends in the read-only view
without `buttonSelect` having returned `true` in it, and so does the pass that
follows a pass ending in the read-only view. -/
theorem read_only_relay_off (i j : TickInput) (g : Globals) :
    (g.currentControl = false → (loop i g).relay = false) ∧
    ((loop i g).currentControl = false → selectFired i g = false →
      (loop i g).relay = false) ∧
    ((loop i g).currentControl = false → (loop j (loop i g)).relay = false) := by
  have hoff : ∀ (k : TickInput) (s : Globals), s.currentControl = false →
      (loop k s).relay = false := by
    intro k s hs
    rw [loop_relay, hs]
    simp [updateRelay]
  refine ⟨hoff i g, ?_, hoff j (loop i g)⟩
  intro hc hf
  have hcc := (loop_select i g).2.2
  rw [hf] at hcc
  simp only [Bool.false_eq_true, if_false] at hcc
  exact hoff i g (hcc ▸ hc)

/-- The pass after a toggle to the read-only view that left the actuator ON
switches it OFF. -/
theorem read_only_relay_off_witness :
    (loop ⟨1310, 21, false, 1311, false, 1311, true, 1312, 1312, 1316⟩
      (runLoop
        [⟨1000, 21, false, 1001, false, 1001, true, 1002, 1002, 1006⟩,
         ⟨1154, 21, false, 1155, false, 1155, true, 1156, 1156, 1160⟩]
        initGlobals)).relay = false :=
  (read_only_relay_off ⟨1310, 21, false, 1311, false, 1311, true, 1312, 1312, 1316⟩
    ⟨1310, 21, false, 1311, false, 1311, true, 1312, 1312, 1316⟩
    (runLoop
      [⟨1000, 21, false, 1001, false, 1001, true, 1002, 1002, 1006⟩,
       ⟨1154, 21, false, 1155, false, 1155, true, 1156, 1156, 1160⟩]
      initGlobals)).1 (by decide)

/-! ## Scenario C -/

/-- C11 as stated fails: the call of `buttonSelect` at the press edge of a tap
sets `forceDisplayUpdate`, and the pass of `loop` with that call redraws although
the flag was clear and the last redraw was 100 ms before. -/
theorem tap_sets_force :
    (buttonSelect true 1002 (initButton BUTTON_CONFIRM) false).forceDisplayUpdate = true ∧
      (loop ⟨1000, 21, false, 1001, false, 1001, true, 1002, 1002, 1006⟩
        { initGlobals with
          forceDisplayUpdate := false, lastDisplayUpdate := 900,
          tempRequested := true, lastTempRequestTime := 900 }).lcd.length = 6 ∧
      (loop ⟨1000, 21, false, 1001, false, 1001, true, 1002, 1002, 1006⟩
        { initGlobals with
          forceDisplayUpdate := false, lastDisplayUpdate := 900,
          tempRequested := true, lastTempRequestTime := 900 }).currentControl = true := by
  decide

/-- C11 amended: over a tap of the mode-select channel (a press edge, high
readings less than `HOLD_THRESHOLD` after it, then low readings) the view does
not change; the call at the press edge sets `forceDisplayUpdate`, so the pass of
the press edge writes a frame to the display; the later calls of the tap, held
below the threshold or low, leave `forceDisplayUpdate` as they find it. -/
theorem tap_no_toggle_one_redraw (i0 : TickInput) (highs lows : List TickInput) (g : Globals)
    (hlow : g.selectButton.wasPressed = false) (h0 : i0.selectLevel = true)
    (hhigh : ∀ i ∈ highs,
      i.selectLevel = true ∧ elapsed i.selectNow i0.selectNow < HOLD_THRESHOLD)
    (hlows : ∀ i ∈ lows, i.selectLevel = false) :
    (runLoop (i0 :: (highs ++ lows)) g).currentControl = g.currentControl ∧
    (afterSelect i0 g).forceDisplayUpdate = true ∧
    (loop i0 g).lcd ≠ g.lcd ∧
    (∀ (now : Nat) (btn : ButtonState) (force : Bool), btn.wasPressed = true →
      elapsed now btn.pressStart < HOLD_THRESHOLD →
      (buttonSelect true now btn force).forceDisplayUpdate = force) ∧
    (∀ (now : Nat) (btn : ButtonState) (force : Bool),
      (buttonSelect false now btn force).forceDisplayUpdate = force) := by
  have hl := loop_select i0 g
  have hpress : buttonSelect true i0.selectNow g.selectButton false =
      { fired := false
        btn := { g.selectButton with
          pressStart := i0.selectNow, lastRepeat := i0.selectNow, wasPressed := true }
        forceDisplayUpdate := true } := by
    simp [buttonSelect, hlow]
  rw [h0, hpress] at hl
  simp only at hl
  have hh := held_below_threshold i0.selectNow highs (loop i0 g)
    (by rw [hl.2.1]) (by rw [hl.2.1]) hhigh
  have hlo := low_no_toggle lows (runLoop highs (loop i0 g)) hlows
  have hforce : (afterSelect i0 g).forceDisplayUpdate = true := by
    unfold afterSelect
    simp only
    rw [(beforeSelect_select i0 g).1, h0]
    simp [buttonSelect, hlow]
  have hdue : redrawDue i0.dispNow1 (afterSelect i0 g) = true := by
    simp [redrawDue, hforce]
  refine ⟨?_, hforce, ?_, ?_, ?_⟩
  · rw [runLoop, runLoop_append, hlo.2, hh.2.1, hl.2.2, hl.1]
    simp
  · rw [((loop_display i0 g).2.2.2.1 hdue).1]
    apply append_frame_ne
    split_ifs <;> simp [defaultFrame, readFrame]
  · intro now btn force hw he
    have hd : repeatDue now btn = false := by
      simp only [repeatDue, Bool.and_eq_false_iff, decide_eq_false_iff_not]
      left
      omega
    obtain ⟨pin, wp, ps, lr, ld⟩ := btn
    simp only at hw
    subst hw
    simp [buttonSelect, hd]
  · intro now btn force
    simp [buttonSelect]

/-- A tap of the mode-select button: high at 1000 and 1020 ms, low at
1040 ms; the view is the one before the tap. -/
theorem tap_no_toggle_one_redraw_witness :
    (runLoop
        [⟨1000, 21, false, 1000, false, 1000, true, 1000, 1000, 1001⟩,
         ⟨1020, 21, false, 1020, false, 1020, true, 1020, 1020, 1021⟩,
         ⟨1040, 21, false, 1040, false, 1040, false, 1040, 1040, 1041⟩]
        initGlobals).currentControl = initGlobals.currentControl :=
  (tap_no_toggle_one_redraw
    ⟨1000, 21, false, 1000, false, 1000, true, 1000, 1000, 1001⟩
    [⟨1020, 21, false, 1020, false, 1020, true, 1020, 1020, 1021⟩]
    [⟨1040, 21, false, 1040, false, 1040, false, 1040, 1040, 1041⟩]
    initGlobals rfl rfl (by decide) (by decide)).1

end HeatedChamber
